import Mathlib

/-!
Verification development for the assetdefi execution core
(`src/radix-engine/src/execution/process.rs`).

The `Process` invocation frame, its host-call handlers and the SBOR
resource-movement walker are embedded from the source.  The supporting
crates (the `Bucket`/`Vault`/`BucketRef` model, `Nat`, the SBOR codec
and the `Runtime` id allocator) are not part of the provided sources and
are modelled from the specification, as marked on each definition.

Rust `HashMap`s are embedded as association lists with unique keys;
`insert`/`remove`/`get` below mirror the `HashMap` API.  Handlers take and
return the state explicitly; a handler that fails after mutating the state
returns the mutated state, exactly as a `&mut self` method in Rust leaves
its mutations in place when it returns `Err`.
-/

namespace AssetDefi

/-- Map lookup (`HashMap::get`): first binding of the key, if any. -/
def alookup {κ α : Type} [DecidableEq κ] (m : List (κ × α)) (k : κ) : Option α :=
  (m.find? (fun e => e.1 = k)).map (fun e => e.2)

/-- Map removal (`HashMap::remove`): drop every binding of the key. -/
def aerase {κ α : Type} [DecidableEq κ] (m : List (κ × α)) (k : κ) : List (κ × α) :=
  m.filter (fun e => e.1 ≠ k)

/-- Map insertion (`HashMap::insert`): bind `k` to `v`, replacing any old binding. -/
def ainsert {κ α : Type} [DecidableEq κ] (m : List (κ × α)) (k : κ) (v : α) : List (κ × α) :=
  (k, v) :: aerase m k

/-- Map extension (`HashMap::extend`): insert every binding of `new`. -/
def aextend {κ α : Type} [DecidableEq κ] (m new : List (κ × α)) : List (κ × α) :=
  new.foldl (fun acc e => ainsert acc e.1 e.2) m

/-- Keys of a map. -/
def akeys {κ α : Type} (m : List (κ × α)) : List κ :=
  m.map (fun e => e.1)

theorem alookup_nil {κ α : Type} [DecidableEq κ] (k : κ) :
    alookup ([] : List (κ × α)) k = none := rfl

theorem alookup_cons {κ α : Type} [DecidableEq κ] (k k' : κ) (v : α) (m : List (κ × α)) :
    alookup ((k', v) :: m) k = if k' = k then some v else alookup m k := by
  by_cases h : k' = k
  · rw [alookup, List.find?_cons_of_pos _ (by simp [h]), if_pos h]
    rfl
  · rw [alookup, List.find?_cons_of_neg _ (by simp [h]), if_neg h]
    rfl

theorem alookup_ainsert_self {κ α : Type} [DecidableEq κ] (m : List (κ × α)) (k : κ) (v : α) :
    alookup (ainsert m k v) k = some v := by
  simp [ainsert, alookup_cons]

theorem aerase_cons {κ α : Type} [DecidableEq κ] (k k' : κ) (v : α) (m : List (κ × α)) :
    aerase ((k', v) :: m) k =
      if k' = k then aerase m k else (k', v) :: aerase m k := by
  by_cases h : k' = k
  · simp [aerase, List.filter_cons, h]
  · simp [aerase, List.filter_cons, h]

theorem alookup_aerase_self {κ α : Type} [DecidableEq κ] (m : List (κ × α)) (k : κ) :
    alookup (aerase m k) k = none := by
  induction m with
  | nil => rfl
  | cons e rest ih =>
    obtain ⟨k', v⟩ := e
    rw [aerase_cons]
    by_cases h : k' = k
    · rw [if_pos h]
      exact ih
    · rw [if_neg h, alookup_cons, if_neg h]
      exact ih

theorem alookup_aerase_ne {κ α : Type} [DecidableEq κ] (m : List (κ × α)) (k k' : κ)
    (h : k' ≠ k) : alookup (aerase m k) k' = alookup m k' := by
  induction m with
  | nil => rfl
  | cons e rest ih =>
    obtain ⟨k0, v⟩ := e
    rw [aerase_cons]
    by_cases hk : k0 = k
    · subst hk
      rw [if_pos rfl, alookup_cons]
      have hne : ¬(k0 = k') := fun hh => h (hh ▸ rfl)
      rw [if_neg hne]
      exact ih
    · rw [if_neg hk, alookup_cons, alookup_cons]
      by_cases hkk : k0 = k'
      · simp [hkk]
      · rw [if_neg hkk, if_neg hkk]
        exact ih

theorem alookup_ainsert_ne {κ α : Type} [DecidableEq κ] (m : List (κ × α)) (k k' : κ) (v : α)
    (h : k ≠ k') : alookup (ainsert m k v) k' = alookup m k' := by
  rw [ainsert, alookup_cons]
  simp only [h, if_false]
  exact alookup_aerase_ne m k k' (fun hh => h hh.symm)

/-- Sum of an evaluation over all bindings of a map. -/
def asum {κ α : Type} (f : α → Nat) (m : List (κ × α)) : Nat :=
  (m.map (fun e => f e.2)).sum

theorem asum_nil {κ α : Type} (f : α → Nat) : asum f ([] : List (κ × α)) = 0 := rfl

theorem asum_cons {κ α : Type} (f : α → Nat) (k : κ) (v : α) (m : List (κ × α)) :
    asum f ((k, v) :: m) = f v + asum f m := by
  simp [asum]

/-- Little-endian byte list (width `w`) of a natural number, as used by the
modelled SBOR codec for length prefixes and fixed-width integers. -/
def natToLe : Nat → Nat → List Nat
  | 0, _ => []
  | w + 1, n => n % 256 :: natToLe w (n / 256)

/-- Value of a little-endian byte list. -/
def leToNat : List Nat → Nat
  | [] => 0
  | b :: bs => b + 256 * leToNat bs

theorem natToLe_length (w n : Nat) : (natToLe w n).length = w := by
  induction w generalizing n with
  | zero => rfl
  | succ w ih => simp [natToLe, ih]

theorem leToNat_natToLe (w n : Nat) : leToNat (natToLe w n) = n % 256 ^ w := by
  induction w generalizing n with
  | zero => simp [natToLe, leToNat, Nat.mod_one]
  | succ w ih =>
    rw [natToLe, leToNat, ih]
    rw [Nat.pow_succ]
    conv_rhs => rw [Nat.mul_comm (256 ^ w) 256]
    rw [Nat.mod_mul]

theorem leToNat_lt (bs : List Nat) (h : ∀ b ∈ bs, b < 256) :
    leToNat bs < 256 ^ bs.length := by
  induction bs with
  | nil => simp [leToNat]
  | cons b rest ih =>
    have hb : b < 256 := h b (by simp)
    have hr : leToNat rest < 256 ^ rest.length := ih (fun x hx => h x (by simp [hx]))
    rw [leToNat, List.length_cons, Nat.pow_succ]
    calc b + 256 * leToNat rest
        ≤ 255 + 256 * leToNat rest := by omega
      _ < 256 * (leToNat rest + 1) := by omega
      _ ≤ 256 * 256 ^ rest.length := by
          exact Nat.mul_le_mul_left 256 (by omega)
      _ = 256 ^ rest.length * 256 := by ring

theorem natToLe_leToNat (bs : List Nat) (h : ∀ b ∈ bs, b < 256) :
    natToLe bs.length (leToNat bs) = bs := by
  induction bs with
  | nil => rfl
  | cons b rest ih =>
    have hb : b < 256 := h b (by simp)
    rw [List.length_cons, natToLe, leToNat]
    have h1 : (b + 256 * leToNat rest) % 256 = b := by omega
    have h2 : (b + 256 * leToNat rest) / 256 = leToNat rest := by omega
    rw [h1, h2, ih (fun x hx => h x (by simp [hx]))]

theorem natToLe_mem_lt (w n : Nat) : ∀ b ∈ natToLe w n, b < 256 := by
  induction w generalizing n with
  | zero => simp [natToLe]
  | succ w ih =>
    intro b hb
    rw [natToLe] at hb
    rcases List.mem_cons.mp hb with h | h
    · subst h
      exact Nat.mod_lt _ (by omega)
    · exact ih (n / 256) b h

/-- Interpret a `w`-byte little-endian value as a two's-complement signed
integer, as the modelled SBOR codec does for `i8..i128`. -/
def leToInt (w : Nat) (bs : List Nat) : Int :=
  let n := leToNat bs
  if 2 * n < 256 ^ w then (n : Int) else (n : Int) - (256 ^ w : Nat)

/-- Two's-complement `w`-byte little-endian image of a signed integer. -/
def intToLe (w : Nat) (i : Int) : List Nat :=
  natToLe w (i % ((256 : Int) ^ w)).toNat

theorem leToInt_intToLe (w : Nat) (i : Int)
    (hlo : -((256 : Int) ^ w / 2) ≤ i) (hhi : 2 * i < (256 : Int) ^ w) :
    leToInt w (intToLe w i) = i := by
  have hMpos : (0 : Int) < (256 : Int) ^ w := by positivity
  have hnn : 0 ≤ i % ((256 : Int) ^ w) := Int.emod_nonneg i (by omega)
  have hub : i % ((256 : Int) ^ w) < (256 : Int) ^ w := Int.emod_lt_of_pos i hMpos
  have hchar : i % ((256 : Int) ^ w) = i ∨ i % ((256 : Int) ^ w) = i + (256 : Int) ^ w := by
    by_cases h0 : 0 ≤ i
    · left
      exact Int.emod_eq_of_lt h0 (by omega)
    · right
      have h1 : (i + (256 : Int) ^ w * 1) % ((256 : Int) ^ w) = i % ((256 : Int) ^ w) :=
        Int.add_mul_emod_self_left i ((256 : Int) ^ w) 1
      rw [Int.mul_one] at h1
      rw [← h1]
      exact Int.emod_eq_of_lt (by omega) (by omega)
  have hcast : (((256 : Nat) ^ w : Nat) : Int) = (256 : Int) ^ w := by
    push_cast
    ring
  have hni : ((i % ((256 : Int) ^ w)).toNat : Int) = i % ((256 : Int) ^ w) :=
    Int.toNat_of_nonneg hnn
  have hnlt : (i % ((256 : Int) ^ w)).toNat < 256 ^ w := by omega
  rw [intToLe, leToInt]
  simp only [leToNat_natToLe]
  rw [Nat.mod_eq_of_lt hnlt]
  split
  · rename_i hsplit
    omega
  · rename_i hsplit
    omega


/-- Address of a package, component or resource (`scrypto::types::Address`;
the enum shape is taken from the `match` in `handle_create_resource_mutable`). -/
inductive Address where
  | package : Nat → Address
  | component : Nat → Address
  | resourceAddress : Nat → Address
deriving DecidableEq, Repr


/-- Modelled from the spec: accounting error kinds of the bucket/vault model
(`BucketError` is referenced but not defined in the provided sources). -/
inductive BucketError where
  | InsufficientBalance
  | MismatchingResource
  | UnauthorizedAccess
deriving DecidableEq, Repr

/-- Decoding error kinds; `DecodeError::InvalidCustomData` appears in
`visit_custom`, the rest are modelled from the spec's *Codec* error kind. -/
inductive DecodeError where
  | InvalidCustomData : Nat → DecodeError
  | Underflow
  | InvalidType : Nat → DecodeError
  | NotAllBytesUsed
deriving DecidableEq, Repr

/-- Runtime error variants, as used by `process.rs`. -/
inductive RuntimeError where
  | PackageAlreadyExists : Address → RuntimeError
  | PackageNotFound : Address → RuntimeError
  | ComponentAlreadyExists : Address → RuntimeError
  | ComponentNotFound : Address → RuntimeError
  | ResourceAlreadyExists : Address → RuntimeError
  | ResourceNotFound : Address → RuntimeError
  | StorageNotFound : Nat → RuntimeError
  | VaultNotFound : Nat → RuntimeError
  | BucketNotFound : Nat → RuntimeError
  | ReferenceNotFound : Nat → RuntimeError
  | AccountingError : BucketError → RuntimeError
  | UnauthorizedAccess
  | UnauthorizedToMint
  | UnableToMintFixedResource
  | BucketMoveNotAllowed
  | ReferenceMoveNotAllowed
  | ResourceLeak
  | InvalidData : DecodeError → RuntimeError
  | InvalidAddressType
  | VmNotStarted
  | InvalidLogLevel
deriving DecidableEq, Repr

/-- Modelled from the spec: a transient container holding an amount of a
single resource (`radix-engine::model::Bucket`).  The spec's `Amount` is a
non-negative integer-valued quantity whose subtraction fails when the
minuend is smaller; it is embedded as `Nat` with guarded subtraction. -/
structure Bucket where
  amount : Nat
  resource : Address
deriving DecidableEq, Repr

/-- Modelled from the spec (§4.5): `Bucket::put` requires an identical
resource address and sums the amounts. -/
def Bucket.put (b other : Bucket) : Except BucketError Bucket :=
  if other.resource = b.resource then
    Except.ok ⟨b.amount + other.amount, b.resource⟩
  else
    Except.error BucketError.MismatchingResource

/-- Modelled from the spec (§4.5): `Bucket::take` requires
`amount ≤ self.amount`; it returns the new bucket and the deducted self. -/
def Bucket.take (b : Bucket) (amount : Nat) : Except BucketError (Bucket × Bucket) :=
  if amount ≤ b.amount then
    Except.ok (⟨amount, b.resource⟩, ⟨b.amount - amount, b.resource⟩)
  else
    Except.error BucketError.InsufficientBalance

/-- Modelled from the spec: a borrowed bucket, addressed by the bucket id it
was locked under (`radix-engine::model::LockedBucket`). -/
structure LockedBucket where
  bucketId : Nat
  bucket : Bucket
deriving DecidableEq, Repr

/-- Modelled from the spec: when a lock reverts, the `LockedBucket` becomes
the plain bucket it holds (the `impl From<LockedBucket> for Bucket` used by
`Rc::try_unwrap(b).unwrap().into()`). -/
def LockedBucket.intoBucket (lb : LockedBucket) : Bucket :=
  lb.bucket

/-- Modelled from the spec: a persistent container holding one bucket plus
the authority package allowed to use it (`radix-engine::model::Vault`). -/
structure Vault where
  bucket : Bucket
  authority : Address
deriving DecidableEq, Repr

/-- Modelled from the spec (§4.5): `Vault::put` requires
`caller == vault.authority` and delegates to `Bucket::put`. -/
def Vault.put (v : Vault) (other : Bucket) (caller : Address) : Except BucketError Vault :=
  if caller = v.authority then
    match v.bucket.put other with
    | Except.ok b => Except.ok ⟨b, v.authority⟩
    | Except.error e => Except.error e
  else
    Except.error BucketError.UnauthorizedAccess

/-- Modelled from the spec (§4.5): `Vault::take` has the same authority rule
and produces a new bucket via `Bucket::take`. -/
def Vault.take (v : Vault) (amount : Nat) (caller : Address) :
    Except BucketError (Bucket × Vault) :=
  if caller = v.authority then
    match v.bucket.take amount with
    | Except.ok (nb, rest) => Except.ok (nb, ⟨rest, v.authority⟩)
    | Except.error e => Except.error e
  else
    Except.error BucketError.UnauthorizedAccess

/-- Resource definition record (field shape as used by
`handle_create_resource_mutable` / `handle_mint_resource`). -/
structure ResourceDef where
  metadata : List (String × String)
  minter : Option Address
  supply : Nat
  auth : Option Address
deriving DecidableEq, Repr

/-- Component record: blueprint (package address, blueprint name) plus
SBOR-encoded state, as used by the component handlers. -/
structure Component where
  blueprint : Address × String
  state : List Nat
deriving DecidableEq, Repr

/-- Modelled from the spec: a storage map with an authority package
(`radix-engine::model::Storage`, used by the storage handlers). -/
structure Storage where
  auth : Address
  entries : List (List Nat × List Nat)
deriving DecidableEq, Repr

/-- Modelled from the spec: `Storage::get_entry`. -/
def Storage.getEntry (s : Storage) (key : List Nat) : Option (List Nat) :=
  (s.entries.find? (fun e => e.1 = key)).map (fun e => e.2)

/-- Modelled from the spec: `Storage::set_entry` binds `key` to `value`. -/
def Storage.setEntry (s : Storage) (key value : List Nat) : Storage :=
  ⟨s.auth, (key, value) :: s.entries.filter (fun e => e.1 ≠ key)⟩

mutual

/-- SBOR value tree (`sbor::parse::Value`), with exactly the constructors
that `Process::visit` matches on. -/
inductive Value where
  | Unit : Value
  | Bool : Bool → Value
  | I8 : Int → Value
  | I16 : Int → Value
  | I32 : Int → Value
  | I64 : Int → Value
  | I128 : Int → Value
  | U8 : Nat → Value
  | U16 : Nat → Value
  | U32 : Nat → Value
  | U64 : Nat → Value
  | U128 : Nat → Value
  | String : String → Value
  | Option : Option Value → Value
  | Box : Value → Value
  | Array : Nat → List Value → Value
  | Tuple : List Value → Value
  | Struct : Fields → Value
  | Enum : Nat → Fields → Value
  | Vec : Nat → List Value → Value
  | TreeSet : Nat → List Value → Value
  | HashSet : Nat → List Value → Value
  | TreeMap : Nat → Nat → List (Value × Value) → Value
  | HashMap : Nat → Nat → List (Value × Value) → Value
  | Custom : Nat → List Nat → Value

/-- Struct/enum field values (`sbor::parse::Fields`). -/
inductive Fields where
  | Named : List Value → Fields
  | Unnamed : List Value → Fields
  | Unit : Fields

end

/-- Custom SBOR type tag for bucket ids (`SCRYPTO_TYPE_BID = 0x83`). -/
def SCRYPTO_TYPE_BID : Nat := 131

/-- Custom SBOR type tag for reference ids (`SCRYPTO_TYPE_RID = 0x84`). -/
def SCRYPTO_TYPE_RID : Nat := 132

/-- Modelled from the spec (§6): bucket/reference ids travel as fixed-width
byte sequences; the width is four bytes, little endian
(`BID::try_from(&[u8])`). -/
def idTryFrom (data : List Nat) : Option Nat :=
  if data.length = 4 ∧ ∀ b ∈ data, b < 256 then some (leToNat data) else none

/-- Modelled from the spec (§6): the byte image of an id (`BID::to_vec`). -/
def idToVec (n : Nat) : List Nat :=
  natToLe 4 n

theorem idTryFrom_idToVec (n : Nat) (h : n < 4294967296) : idTryFrom (idToVec n) = some n := by
  rw [idToVec, idTryFrom, if_pos ⟨natToLe_length 4 n, natToLe_mem_lt 4 n⟩]
  rw [leToNat_natToLe]
  congr 1
  omega

theorem idToVec_idTryFrom (data : List Nat) (n : Nat) (h : idTryFrom data = some n) :
    idToVec n = data := by
  rw [idTryFrom] at h
  split at h
  · rename_i hcond
    obtain ⟨hlen, hmem⟩ := hcond
    rw [idToVec]
    cases h
    rw [← hlen]
    exact natToLe_leToNat data hmem
  · cases h

mutual

/-- Modelled from the spec: byte encoding of an SBOR value with type info
(`sbor::parse::write_any` into `Encoder::with_type`).  Type ids 20–24 and
the `u32` id 9 with 4-byte little-endian length prefixes are fixed by
`sbor-tests/tests/encode.rs`; the remaining ids are modelled. -/
def encodeAny : Value → List Nat
  | Value.Unit => [0]
  | Value.Bool b => [1, if b then 1 else 0]
  | Value.I8 i => 2 :: intToLe 1 i
  | Value.I16 i => 3 :: intToLe 2 i
  | Value.I32 i => 4 :: intToLe 4 i
  | Value.I64 i => 5 :: intToLe 8 i
  | Value.I128 i => 6 :: intToLe 16 i
  | Value.U8 n => 7 :: natToLe 1 n
  | Value.U16 n => 8 :: natToLe 2 n
  | Value.U32 n => 9 :: natToLe 4 n
  | Value.U64 n => 10 :: natToLe 8 n
  | Value.U128 n => 11 :: natToLe 16 n
  | Value.String s => 12 :: (natToLe 4 s.data.length ++ s.data.map Char.toNat)
  | Value.Option o =>
    match o with
    | none => [13, 0]
    | some v => 13 :: 1 :: encodeAny v
  | Value.Box v => 14 :: encodeAny v
  | Value.Array ty vs => 15 :: ty :: (natToLe 4 vs.length ++ encodeVec vs)
  | Value.Tuple vs => 16 :: (natToLe 4 vs.length ++ encodeVec vs)
  | Value.Struct fs => 20 :: encodeFields fs
  | Value.Enum idx fs => 21 :: idx :: encodeFields fs
  | Value.Vec ty vs => 25 :: ty :: (natToLe 4 vs.length ++ encodeVec vs)
  | Value.TreeSet ty vs => 26 :: ty :: (natToLe 4 vs.length ++ encodeVec vs)
  | Value.HashSet ty vs => 28 :: ty :: (natToLe 4 vs.length ++ encodeVec vs)
  | Value.TreeMap tyk tyv kvs => 27 :: tyk :: tyv :: (natToLe 4 kvs.length ++ encodeMap kvs)
  | Value.HashMap tyk tyv kvs => 29 :: tyk :: tyv :: (natToLe 4 kvs.length ++ encodeMap kvs)
  | Value.Custom ty data => ty :: (natToLe 4 data.length ++ data)

/-- Concatenated encodings of a list of values. -/
def encodeVec : List Value → List Nat
  | [] => []
  | v :: rest => encodeAny v ++ encodeVec rest

/-- Concatenated encodings of a list of key/value pairs. -/
def encodeMap : List (Value × Value) → List Nat
  | [] => []
  | (k, v) :: rest => encodeAny k ++ encodeAny v ++ encodeMap rest

/-- Byte encoding of struct/enum fields (ids 22/23/24 from the encode test). -/
def encodeFields : Fields → List Nat
  | Fields.Named vs => 22 :: (natToLe 4 vs.length ++ encodeVec vs)
  | Fields.Unnamed vs => 23 :: (natToLe 4 vs.length ++ encodeVec vs)
  | Fields.Unit => [24]

end

mutual

/-- Well-formedness of a value for the modelled codec: numeric payloads fit
their width, lengths fit the 4-byte prefix, custom tags are in the custom
range, and bucket/reference custom leaves carry a valid fixed-width id. -/
def wfValue : Value → Bool
  | Value.Unit => true
  | Value.Bool _ => true
  | Value.I8 i => decide (-((256 : Int) ^ 1 / 2) ≤ i) && decide (2 * i < (256 : Int) ^ 1)
  | Value.I16 i => decide (-((256 : Int) ^ 2 / 2) ≤ i) && decide (2 * i < (256 : Int) ^ 2)
  | Value.I32 i => decide (-((256 : Int) ^ 4 / 2) ≤ i) && decide (2 * i < (256 : Int) ^ 4)
  | Value.I64 i => decide (-((256 : Int) ^ 8 / 2) ≤ i) && decide (2 * i < (256 : Int) ^ 8)
  | Value.I128 i => decide (-((256 : Int) ^ 16 / 2) ≤ i) && decide (2 * i < (256 : Int) ^ 16)
  | Value.U8 n => decide (n < 256 ^ 1)
  | Value.U16 n => decide (n < 256 ^ 2)
  | Value.U32 n => decide (n < 256 ^ 4)
  | Value.U64 n => decide (n < 256 ^ 8)
  | Value.U128 n => decide (n < 256 ^ 16)
  | Value.String s =>
    decide (s.data.length < 4294967296) && s.data.all (fun c => decide (c.toNat < 256))
  | Value.Option o =>
    match o with
    | none => true
    | some v => wfValue v
  | Value.Box v => wfValue v
  | Value.Array ty vs => decide (ty < 256) && decide (vs.length < 4294967296) && wfVec vs
  | Value.Tuple vs => decide (vs.length < 4294967296) && wfVec vs
  | Value.Struct fs => wfFields fs
  | Value.Enum idx fs => decide (idx < 256) && wfFields fs
  | Value.Vec ty vs => decide (ty < 256) && decide (vs.length < 4294967296) && wfVec vs
  | Value.TreeSet ty vs => decide (ty < 256) && decide (vs.length < 4294967296) && wfVec vs
  | Value.HashSet ty vs => decide (ty < 256) && decide (vs.length < 4294967296) && wfVec vs
  | Value.TreeMap tyk tyv kvs =>
    decide (tyk < 256) && decide (tyv < 256) && decide (kvs.length < 4294967296) && wfMap kvs
  | Value.HashMap tyk tyv kvs =>
    decide (tyk < 256) && decide (tyv < 256) && decide (kvs.length < 4294967296) && wfMap kvs
  | Value.Custom ty data =>
    decide (128 ≤ ty) && decide (ty < 256) && decide (data.length < 4294967296) &&
      data.all (fun b => decide (b < 256)) &&
      (if ty = SCRYPTO_TYPE_BID ∨ ty = SCRYPTO_TYPE_RID then decide (data.length = 4) else true)

/-- Well-formedness of every value in a list. -/
def wfVec : List Value → Bool
  | [] => true
  | v :: rest => wfValue v && wfVec rest

/-- Well-formedness of every key/value pair in a list. -/
def wfMap : List (Value × Value) → Bool
  | [] => true
  | (k, v) :: rest => wfValue k && wfValue v && wfMap rest

/-- Well-formedness of struct/enum fields. -/
def wfFields : Fields → Bool
  | Fields.Named vs => decide (vs.length < 4294967296) && wfVec vs
  | Fields.Unnamed vs => decide (vs.length < 4294967296) && wfVec vs
  | Fields.Unit => true

end

mutual

/-- Nesting depth of a value; the decoder needs fuel at least this deep. -/
def depthValue : Value → Nat
  | Value.Option o =>
    match o with
    | none => 1
    | some v => 1 + depthValue v
  | Value.Box v => 1 + depthValue v
  | Value.Array _ vs => 1 + depthVec vs
  | Value.Tuple vs => 1 + depthVec vs
  | Value.Struct fs => 1 + depthFields fs
  | Value.Enum _ fs => 1 + depthFields fs
  | Value.Vec _ vs => 1 + depthVec vs
  | Value.TreeSet _ vs => 1 + depthVec vs
  | Value.HashSet _ vs => 1 + depthVec vs
  | Value.TreeMap _ _ kvs => 1 + depthMap kvs
  | Value.HashMap _ _ kvs => 1 + depthMap kvs
  | _ => 1

/-- Maximum depth over a list of values. -/
def depthVec : List Value → Nat
  | [] => 0
  | v :: rest => max (depthValue v) (depthVec rest)

/-- Maximum depth over key/value pairs. -/
def depthMap : List (Value × Value) → Nat
  | [] => 0
  | (k, v) :: rest => max (max (depthValue k) (depthValue v)) (depthMap rest)

/-- Maximum depth over fields. -/
def depthFields : Fields → Nat
  | Fields.Named vs => depthVec vs
  | Fields.Unnamed vs => depthVec vs
  | Fields.Unit => 0

end

/-- Read exactly `n` bytes from the input. -/
def readN (n : Nat) (bs : List Nat) : Except DecodeError (List Nat × List Nat) :=
  if n ≤ bs.length then Except.ok (bs.take n, bs.drop n) else Except.error DecodeError.Underflow

/-- Decode `n` consecutive values with the element decoder `dec`. -/
def decodeList (dec : List Nat → Except DecodeError (Value × List Nat)) :
    Nat → List Nat → Except DecodeError (List Value × List Nat)
  | 0, bs => Except.ok ([], bs)
  | n + 1, bs =>
    match dec bs with
    | Except.error e => Except.error e
    | Except.ok (v, bs1) =>
      match decodeList dec n bs1 with
      | Except.error e => Except.error e
      | Except.ok (vs, bs2) => Except.ok (v :: vs, bs2)

/-- Decode `n` consecutive key/value pairs with the element decoder `dec`. -/
def decodeKVs (dec : List Nat → Except DecodeError (Value × List Nat)) :
    Nat → List Nat → Except DecodeError (List (Value × Value) × List Nat)
  | 0, bs => Except.ok ([], bs)
  | n + 1, bs =>
    match dec bs with
    | Except.error e => Except.error e
    | Except.ok (k, bs1) =>
      match dec bs1 with
      | Except.error e => Except.error e
      | Except.ok (v, bs2) =>
        match decodeKVs dec n bs2 with
        | Except.error e => Except.error e
        | Except.ok (kvs, bs3) => Except.ok ((k, v) :: kvs, bs3)

/-- Decode struct/enum fields with the element decoder `dec`. -/
def decodeFieldsWith (dec : List Nat → Except DecodeError (Value × List Nat))
    (bs : List Nat) : Except DecodeError (Fields × List Nat) :=
  match bs with
  | 22 :: r =>
    match readN 4 r with
    | Except.error e => Except.error e
    | Except.ok (lenB, r1) =>
      match decodeList dec (leToNat lenB) r1 with
      | Except.error e => Except.error e
      | Except.ok (vs, r2) => Except.ok (Fields.Named vs, r2)
  | 23 :: r =>
    match readN 4 r with
    | Except.error e => Except.error e
    | Except.ok (lenB, r1) =>
      match decodeList dec (leToNat lenB) r1 with
      | Except.error e => Except.error e
      | Except.ok (vs, r2) => Except.ok (Fields.Unnamed vs, r2)
  | 24 :: r => Except.ok (Fields.Unit, r)
  | b :: _ => Except.error (DecodeError.InvalidType b)
  | [] => Except.error DecodeError.Underflow

/-- Decode a fixed-width unsigned integer value. -/
def decodeUnsigned (w : Nat) (mk : Nat → Value) (bs : List Nat) :
    Except DecodeError (Value × List Nat) :=
  match readN w bs with
  | Except.error e => Except.error e
  | Except.ok (chunk, r) => Except.ok (mk (leToNat chunk), r)

/-- Decode a fixed-width two's-complement signed integer value. -/
def decodeSigned (w : Nat) (mk : Int → Value) (bs : List Nat) :
    Except DecodeError (Value × List Nat) :=
  match readN w bs with
  | Except.error e => Except.error e
  | Except.ok (chunk, r) => Except.ok (mk (leToInt w chunk), r)

/-- Decode a length-prefixed sequence of values. -/
def decodeSeq (dec : List Nat → Except DecodeError (Value × List Nat))
    (mk : List Value → Value) (bs : List Nat) : Except DecodeError (Value × List Nat) :=
  match readN 4 bs with
  | Except.error e => Except.error e
  | Except.ok (lenB, r1) =>
    match decodeList dec (leToNat lenB) r1 with
    | Except.error e => Except.error e
    | Except.ok (vs, r2) => Except.ok (mk vs, r2)

/-- Decode a length-prefixed sequence of key/value pairs. -/
def decodeSeqKV (dec : List Nat → Except DecodeError (Value × List Nat))
    (mk : List (Value × Value) → Value) (bs : List Nat) :
    Except DecodeError (Value × List Nat) :=
  match readN 4 bs with
  | Except.error e => Except.error e
  | Except.ok (lenB, r1) =>
    match decodeKVs dec (leToNat lenB) r1 with
    | Except.error e => Except.error e
    | Except.ok (kvs, r2) => Except.ok (mk kvs, r2)

/-- Modelled from the spec: fuel-indexed byte decoder of an SBOR value with
type info (`sbor::parse::parse_any`); the exact inverse of `encodeAny`. -/
def decodeAny : Nat → List Nat → Except DecodeError (Value × List Nat)
  | 0, _ => Except.error DecodeError.Underflow
  | fuel + 1, bs =>
    match bs with
    | [] => Except.error DecodeError.Underflow
    | b :: r =>
      if b = 0 then Except.ok (Value.Unit, r)
      else if b = 1 then
        match r with
        | 0 :: r2 => Except.ok (Value.Bool false, r2)
        | 1 :: r2 => Except.ok (Value.Bool true, r2)
        | _ => Except.error (DecodeError.InvalidType 1)
      else if b = 2 then decodeSigned 1 Value.I8 r
      else if b = 3 then decodeSigned 2 Value.I16 r
      else if b = 4 then decodeSigned 4 Value.I32 r
      else if b = 5 then decodeSigned 8 Value.I64 r
      else if b = 6 then decodeSigned 16 Value.I128 r
      else if b = 7 then decodeUnsigned 1 Value.U8 r
      else if b = 8 then decodeUnsigned 2 Value.U16 r
      else if b = 9 then decodeUnsigned 4 Value.U32 r
      else if b = 10 then decodeUnsigned 8 Value.U64 r
      else if b = 11 then decodeUnsigned 16 Value.U128 r
      else if b = 12 then
        match readN 4 r with
        | Except.error e => Except.error e
        | Except.ok (lenB, r1) =>
          match readN (leToNat lenB) r1 with
          | Except.error e => Except.error e
          | Except.ok (strB, r2) =>
            Except.ok (Value.String (String.mk (strB.map Char.ofNat)), r2)
      else if b = 13 then
        match r with
        | 0 :: r2 => Except.ok (Value.Option none, r2)
        | 1 :: r2 =>
          match decodeAny fuel r2 with
          | Except.error e => Except.error e
          | Except.ok (v, r3) => Except.ok (Value.Option (some v), r3)
        | _ => Except.error (DecodeError.InvalidType 13)
      else if b = 14 then
        match decodeAny fuel r with
        | Except.error e => Except.error e
        | Except.ok (v, r2) => Except.ok (Value.Box v, r2)
      else if b = 15 then
        match r with
        | ty :: r1 => decodeSeq (decodeAny fuel) (Value.Array ty) r1
        | [] => Except.error DecodeError.Underflow
      else if b = 16 then decodeSeq (decodeAny fuel) Value.Tuple r
      else if b = 20 then
        match decodeFieldsWith (decodeAny fuel) r with
        | Except.error e => Except.error e
        | Except.ok (fs, r2) => Except.ok (Value.Struct fs, r2)
      else if b = 21 then
        match r with
        | idx :: r1 =>
          match decodeFieldsWith (decodeAny fuel) r1 with
          | Except.error e => Except.error e
          | Except.ok (fs, r2) => Except.ok (Value.Enum idx fs, r2)
        | [] => Except.error DecodeError.Underflow
      else if b = 25 then
        match r with
        | ty :: r1 => decodeSeq (decodeAny fuel) (Value.Vec ty) r1
        | [] => Except.error DecodeError.Underflow
      else if b = 26 then
        match r with
        | ty :: r1 => decodeSeq (decodeAny fuel) (Value.TreeSet ty) r1
        | [] => Except.error DecodeError.Underflow
      else if b = 28 then
        match r with
        | ty :: r1 => decodeSeq (decodeAny fuel) (Value.HashSet ty) r1
        | [] => Except.error DecodeError.Underflow
      else if b = 27 then
        match r with
        | tyk :: tyv :: r1 => decodeSeqKV (decodeAny fuel) (Value.TreeMap tyk tyv) r1
        | _ => Except.error DecodeError.Underflow
      else if b = 29 then
        match r with
        | tyk :: tyv :: r1 => decodeSeqKV (decodeAny fuel) (Value.HashMap tyk tyv) r1
        | _ => Except.error DecodeError.Underflow
      else if 128 ≤ b then
        match readN 4 r with
        | Except.error e => Except.error e
        | Except.ok (lenB, r1) =>
          match readN (leToNat lenB) r1 with
          | Except.error e => Except.error e
          | Except.ok (data, r2) => Except.ok (Value.Custom b data, r2)
      else Except.error (DecodeError.InvalidType b)

/-- Modelled from the spec: `sbor::parse::parse_any` decodes a full payload,
requiring that every byte is consumed. -/
def parseAny (data : List Nat) : Except DecodeError Value :=
  match decodeAny (data.length + 1) data with
  | Except.error e => Except.error e
  | Except.ok (v, rest) =>
    match rest with
    | [] => Except.ok v
    | _ => Except.error DecodeError.NotAllBytesUsed

theorem readN_exact (xs rest : List Nat) : readN xs.length (xs ++ rest) = Except.ok (xs, rest) := by
  rw [readN, if_pos (by simp)]
  rw [List.take_left, List.drop_left]

theorem readN_of_length (n : Nat) (xs rest : List Nat) (h : xs.length = n) :
    readN n (xs ++ rest) = Except.ok (xs, rest) := by
  subst h
  exact readN_exact xs rest

theorem decodeUnsigned_natToLe (w : Nat) (mk : Nat → Value) (n : Nat) (rest : List Nat)
    (h : n < 256 ^ w) :
    decodeUnsigned w mk (natToLe w n ++ rest) = Except.ok (mk n, rest) := by
  have h1 : readN w (natToLe w n ++ rest) = Except.ok (natToLe w n, rest) :=
    readN_of_length w (natToLe w n) rest (natToLe_length w n)
  simp [decodeUnsigned, h1, leToNat_natToLe, Nat.mod_eq_of_lt h]

theorem decodeSigned_intToLe (w : Nat) (mk : Int → Value) (i : Int) (rest : List Nat)
    (hlo : -((256 : Int) ^ w / 2) ≤ i) (hhi : 2 * i < (256 : Int) ^ w) :
    decodeSigned w mk (intToLe w i ++ rest) = Except.ok (mk i, rest) := by
  have h1 : readN w (intToLe w i ++ rest) = Except.ok (intToLe w i, rest) :=
    readN_of_length w (intToLe w i) rest (natToLe_length w _)
  simp [decodeSigned, h1, leToInt_intToLe w i hlo hhi]

theorem decodeList_encodeVec (dec : List Nat → Except DecodeError (Value × List Nat))
    (vs : List Value) (rest : List Nat)
    (h : ∀ v ∈ vs, ∀ r : List Nat, dec (encodeAny v ++ r) = Except.ok (v, r)) :
    decodeList dec vs.length (encodeVec vs ++ rest) = Except.ok (vs, rest) := by
  induction vs with
  | nil => rfl
  | cons v vtail ih =>
    have hv : ∀ r : List Nat, dec (encodeAny v ++ r) = Except.ok (v, r) := h v (by simp)
    have htail := ih (fun x hx r => h x (by simp [hx]) r)
    rw [List.length_cons, encodeVec, List.append_assoc, decodeList]
    simp [hv, htail]

theorem decodeKVs_encodeMap (dec : List Nat → Except DecodeError (Value × List Nat))
    (kvs : List (Value × Value)) (rest : List Nat)
    (h : ∀ p ∈ kvs, (∀ r : List Nat, dec (encodeAny p.1 ++ r) = Except.ok (p.1, r)) ∧
      (∀ r : List Nat, dec (encodeAny p.2 ++ r) = Except.ok (p.2, r))) :
    decodeKVs dec kvs.length (encodeMap kvs ++ rest) = Except.ok (kvs, rest) := by
  induction kvs with
  | nil => rfl
  | cons p ptail ih =>
    obtain ⟨k, v⟩ := p
    have hk : ∀ r : List Nat, dec (encodeAny k ++ r) = Except.ok (k, r) :=
      (h (k, v) (by simp)).1
    have hv : ∀ r : List Nat, dec (encodeAny v ++ r) = Except.ok (v, r) :=
      (h (k, v) (by simp)).2
    have htail := ih (fun x hx => h x (by simp [hx]))
    rw [List.length_cons, encodeMap, List.append_assoc, List.append_assoc, decodeKVs]
    simp [hk, hv, htail]

theorem decodeSeq_encodeVec (dec : List Nat → Except DecodeError (Value × List Nat))
    (mk : List Value → Value) (vs : List Value) (rest : List Nat)
    (hlen : vs.length < 4294967296)
    (h : ∀ v ∈ vs, ∀ r : List Nat, dec (encodeAny v ++ r) = Except.ok (v, r)) :
    decodeSeq dec mk (natToLe 4 vs.length ++ encodeVec vs ++ rest) =
      Except.ok (mk vs, rest) := by
  have h1 : readN 4 (natToLe 4 vs.length ++ (encodeVec vs ++ rest)) =
      Except.ok (natToLe 4 vs.length, encodeVec vs ++ rest) :=
    readN_of_length 4 _ _ (natToLe_length 4 _)
  have h2 : decodeList dec (leToNat (natToLe 4 vs.length)) (encodeVec vs ++ rest) =
      Except.ok (vs, rest) := by
    rw [leToNat_natToLe, Nat.mod_eq_of_lt (show vs.length < 256 ^ 4 by omega)]
    exact decodeList_encodeVec dec vs rest h
  simp [decodeSeq, List.append_assoc, h1, h2]

theorem decodeSeqKV_encodeMap (dec : List Nat → Except DecodeError (Value × List Nat))
    (mk : List (Value × Value) → Value) (kvs : List (Value × Value)) (rest : List Nat)
    (hlen : kvs.length < 4294967296)
    (h : ∀ p ∈ kvs, (∀ r : List Nat, dec (encodeAny p.1 ++ r) = Except.ok (p.1, r)) ∧
      (∀ r : List Nat, dec (encodeAny p.2 ++ r) = Except.ok (p.2, r))) :
    decodeSeqKV dec mk (natToLe 4 kvs.length ++ encodeMap kvs ++ rest) =
      Except.ok (mk kvs, rest) := by
  have h1 : readN 4 (natToLe 4 kvs.length ++ (encodeMap kvs ++ rest)) =
      Except.ok (natToLe 4 kvs.length, encodeMap kvs ++ rest) :=
    readN_of_length 4 _ _ (natToLe_length 4 _)
  have h2 : decodeKVs dec (leToNat (natToLe 4 kvs.length)) (encodeMap kvs ++ rest) =
      Except.ok (kvs, rest) := by
    rw [leToNat_natToLe, Nat.mod_eq_of_lt (show kvs.length < 256 ^ 4 by omega)]
    exact decodeKVs_encodeMap dec kvs rest h
  simp [decodeSeqKV, List.append_assoc, h1, h2]

theorem decodeFieldsWith_encodeFields (dec : List Nat → Except DecodeError (Value × List Nat))
    (fs : Fields) (rest : List Nat)
    (hlen : (match fs with
      | Fields.Named vs => vs.length < 4294967296
      | Fields.Unnamed vs => vs.length < 4294967296
      | Fields.Unit => True))
    (h : ∀ v, (match fs with
      | Fields.Named vs => v ∈ vs
      | Fields.Unnamed vs => v ∈ vs
      | Fields.Unit => False) → ∀ r : List Nat, dec (encodeAny v ++ r) = Except.ok (v, r)) :
    decodeFieldsWith dec (encodeFields fs ++ rest) = Except.ok (fs, rest) := by
  cases fs with
  | Named vs =>
    have h1 : readN 4 (natToLe 4 vs.length ++ (encodeVec vs ++ rest)) =
        Except.ok (natToLe 4 vs.length, encodeVec vs ++ rest) :=
      readN_of_length 4 _ _ (natToLe_length 4 _)
    have h0 : vs.length < 4294967296 := hlen
    have h2 : decodeList dec (leToNat (natToLe 4 vs.length)) (encodeVec vs ++ rest) =
        Except.ok (vs, rest) := by
      rw [leToNat_natToLe, Nat.mod_eq_of_lt (show vs.length < 256 ^ 4 by omega)]
      exact decodeList_encodeVec dec vs rest (fun v hv r => h v hv r)
    simp [encodeFields, decodeFieldsWith, List.append_assoc, h1, h2]
  | Unnamed vs =>
    have h1 : readN 4 (natToLe 4 vs.length ++ (encodeVec vs ++ rest)) =
        Except.ok (natToLe 4 vs.length, encodeVec vs ++ rest) :=
      readN_of_length 4 _ _ (natToLe_length 4 _)
    have h0 : vs.length < 4294967296 := hlen
    have h2 : decodeList dec (leToNat (natToLe 4 vs.length)) (encodeVec vs ++ rest) =
        Except.ok (vs, rest) := by
      rw [leToNat_natToLe, Nat.mod_eq_of_lt (show vs.length < 256 ^ 4 by omega)]
      exact decodeList_encodeVec dec vs rest (fun v hv r => h v hv r)
    simp [encodeFields, decodeFieldsWith, List.append_assoc, h1, h2]
  | Unit => rfl

theorem wfVec_mem (vs : List Value) (v : Value) (hwf : wfVec vs = true) (hv : v ∈ vs) :
    wfValue v = true := by
  induction vs with
  | nil => cases hv
  | cons x xtail ih =>
    rw [wfVec, Bool.and_eq_true] at hwf
    rcases List.mem_cons.mp hv with h | h
    · subst h
      exact hwf.1
    · exact ih hwf.2 h

theorem wfMap_mem (kvs : List (Value × Value)) (p : Value × Value)
    (hwf : wfMap kvs = true) (hp : p ∈ kvs) : wfValue p.1 = true ∧ wfValue p.2 = true := by
  induction kvs with
  | nil => cases hp
  | cons x xtail ih =>
    obtain ⟨k, v⟩ := x
    have h123 : wfValue k = true ∧ wfValue v = true ∧ wfMap xtail = true := by
      rw [wfMap] at hwf
      simp only [Bool.and_eq_true] at hwf
      exact ⟨hwf.1.1, hwf.1.2, hwf.2⟩
    rcases List.mem_cons.mp hp with h | h
    · subst h
      exact ⟨h123.1, h123.2.1⟩
    · exact ih h123.2.2 h

theorem depthVec_mem_le (vs : List Value) (v : Value) (hv : v ∈ vs) :
    depthValue v ≤ depthVec vs := by
  induction vs with
  | nil => cases hv
  | cons x xtail ih =>
    rw [depthVec]
    rcases List.mem_cons.mp hv with h | h
    · subst h
      exact Nat.le_max_left _ _
    · exact Nat.le_trans (ih h) (Nat.le_max_right _ _)

theorem depthMap_mem_le (kvs : List (Value × Value)) (p : Value × Value) (hp : p ∈ kvs) :
    depthValue p.1 ≤ depthMap kvs ∧ depthValue p.2 ≤ depthMap kvs := by
  induction kvs with
  | nil => cases hp
  | cons x xtail ih =>
    obtain ⟨k, v⟩ := x
    rw [depthMap]
    rcases List.mem_cons.mp hp with h | h
    · subst h
      exact ⟨Nat.le_trans (Nat.le_max_left _ _) (Nat.le_max_left _ _),
        Nat.le_trans (Nat.le_max_right _ _) (Nat.le_max_left _ _)⟩
    · exact ⟨Nat.le_trans (ih h).1 (Nat.le_max_right _ _),
        Nat.le_trans (ih h).2 (Nat.le_max_right _ _)⟩

theorem depthValue_pos : ∀ v : Value, 1 ≤ depthValue v
  | Value.Unit => by simp [depthValue]
  | Value.Bool _ => by simp [depthValue]
  | Value.I8 _ => by simp [depthValue]
  | Value.I16 _ => by simp [depthValue]
  | Value.I32 _ => by simp [depthValue]
  | Value.I64 _ => by simp [depthValue]
  | Value.I128 _ => by simp [depthValue]
  | Value.U8 _ => by simp [depthValue]
  | Value.U16 _ => by simp [depthValue]
  | Value.U32 _ => by simp [depthValue]
  | Value.U64 _ => by simp [depthValue]
  | Value.U128 _ => by simp [depthValue]
  | Value.String _ => by simp [depthValue]
  | Value.Option none => by simp [depthValue]
  | Value.Option (some _) => by simp [depthValue]
  | Value.Box _ => by simp [depthValue]
  | Value.Array _ _ => by simp [depthValue]
  | Value.Tuple _ => by simp [depthValue]
  | Value.Struct _ => by simp [depthValue]
  | Value.Enum _ _ => by simp [depthValue]
  | Value.Vec _ _ => by simp [depthValue]
  | Value.TreeSet _ _ => by simp [depthValue]
  | Value.HashSet _ _ => by simp [depthValue]
  | Value.TreeMap _ _ _ => by simp [depthValue]
  | Value.HashMap _ _ _ => by simp [depthValue]
  | Value.Custom _ _ => by simp [depthValue]

/-- Round trip of the modelled codec: decoding an encoded well-formed value
returns the value and the unread remainder, given fuel at least its depth. -/
theorem decodeAny_encodeAny (fuel : Nat) : ∀ (v : Value) (rest : List Nat),
    wfValue v = true → depthValue v ≤ fuel →
    decodeAny fuel (encodeAny v ++ rest) = Except.ok (v, rest) := by
  induction fuel with
  | zero =>
    intro v rest hwf hd
    exact absurd hd (by have := depthValue_pos v; omega)
  | succ fuel ih =>
    intro v rest hwf hd
    cases v with
    | Unit => simp [encodeAny, decodeAny]
    | Bool b => cases b <;> simp [encodeAny, decodeAny]
    | I8 i =>
      simp only [wfValue, Bool.and_eq_true, decide_eq_true_eq] at hwf
      simp [encodeAny, decodeAny, decodeSigned_intToLe 1 Value.I8 i rest hwf.1 hwf.2]
    | I16 i =>
      simp only [wfValue, Bool.and_eq_true, decide_eq_true_eq] at hwf
      simp [encodeAny, decodeAny, decodeSigned_intToLe 2 Value.I16 i rest hwf.1 hwf.2]
    | I32 i =>
      simp only [wfValue, Bool.and_eq_true, decide_eq_true_eq] at hwf
      simp [encodeAny, decodeAny, decodeSigned_intToLe 4 Value.I32 i rest hwf.1 hwf.2]
    | I64 i =>
      simp only [wfValue, Bool.and_eq_true, decide_eq_true_eq] at hwf
      simp [encodeAny, decodeAny, decodeSigned_intToLe 8 Value.I64 i rest hwf.1 hwf.2]
    | I128 i =>
      simp only [wfValue, Bool.and_eq_true, decide_eq_true_eq] at hwf
      simp [encodeAny, decodeAny, decodeSigned_intToLe 16 Value.I128 i rest hwf.1 hwf.2]
    | U8 n =>
      simp only [wfValue, decide_eq_true_eq] at hwf
      simp [encodeAny, decodeAny, decodeUnsigned_natToLe 1 Value.U8 n rest hwf]
    | U16 n =>
      simp only [wfValue, decide_eq_true_eq] at hwf
      simp [encodeAny, decodeAny, decodeUnsigned_natToLe 2 Value.U16 n rest hwf]
    | U32 n =>
      simp only [wfValue, decide_eq_true_eq] at hwf
      simp [encodeAny, decodeAny, decodeUnsigned_natToLe 4 Value.U32 n rest hwf]
    | U64 n =>
      simp only [wfValue, decide_eq_true_eq] at hwf
      simp [encodeAny, decodeAny, decodeUnsigned_natToLe 8 Value.U64 n rest hwf]
    | U128 n =>
      simp only [wfValue, decide_eq_true_eq] at hwf
      simp [encodeAny, decodeAny, decodeUnsigned_natToLe 16 Value.U128 n rest hwf]
    | String s =>
      obtain ⟨cs⟩ := s
      simp only [wfValue, Bool.and_eq_true, decide_eq_true_eq, List.all_eq_true] at hwf
      obtain ⟨hlen, hchars⟩ := hwf
      have h1 : readN 4 (natToLe 4 cs.length ++ (cs.map Char.toNat ++ rest)) =
          Except.ok (natToLe 4 cs.length, cs.map Char.toNat ++ rest) :=
        readN_of_length 4 _ _ (natToLe_length 4 _)
      have h2 : readN (leToNat (natToLe 4 cs.length)) (cs.map Char.toNat ++ rest) =
          Except.ok (cs.map Char.toNat, rest) := by
        rw [leToNat_natToLe, Nat.mod_eq_of_lt (show cs.length < 256 ^ 4 by omega)]
        exact readN_of_length _ _ _ (by simp)
      have h3 : (cs.map Char.toNat).map Char.ofNat = cs := by
        rw [List.map_map]
        have : ∀ c ∈ cs, (Char.ofNat ∘ Char.toNat) c = id c := by
          intro c hc
          simp [Char.ofNat_toNat]
        rw [List.map_congr_left this, List.map_id]
      simp [encodeAny, decodeAny, List.append_assoc, h1, h2, h3]
    | Option o =>
      cases o with
      | none => simp [encodeAny, decodeAny]
      | some w =>
        simp only [wfValue] at hwf
        simp only [depthValue] at hd
        simp [encodeAny, decodeAny, ih w rest hwf (by omega)]
    | Box w =>
      simp only [wfValue] at hwf
      simp only [depthValue] at hd
      simp [encodeAny, decodeAny, ih w rest hwf (by omega)]
    | Array ty vs =>
      simp only [wfValue, Bool.and_eq_true, decide_eq_true_eq] at hwf
      obtain ⟨⟨hty, hlen⟩, hvec⟩ := hwf
      simp only [depthValue] at hd
      have helem : ∀ v ∈ vs, ∀ r : List Nat,
          decodeAny fuel (encodeAny v ++ r) = Except.ok (v, r) :=
        fun v hv r => ih v r (wfVec_mem vs v hvec hv)
          (Nat.le_trans (depthVec_mem_le vs v hv) (by omega))
      have hseq := decodeSeq_encodeVec (decodeAny fuel) (Value.Array ty) vs rest hlen helem
      simp only [encodeAny, decodeAny, List.cons_append, List.append_assoc]
      exact hseq
    | Tuple vs =>
      simp only [wfValue, Bool.and_eq_true, decide_eq_true_eq] at hwf
      obtain ⟨hlen, hvec⟩ := hwf
      simp only [depthValue] at hd
      have helem : ∀ v ∈ vs, ∀ r : List Nat,
          decodeAny fuel (encodeAny v ++ r) = Except.ok (v, r) :=
        fun v hv r => ih v r (wfVec_mem vs v hvec hv)
          (Nat.le_trans (depthVec_mem_le vs v hv) (by omega))
      have hseq := decodeSeq_encodeVec (decodeAny fuel) Value.Tuple vs rest hlen helem
      simp only [encodeAny, decodeAny, List.cons_append, List.append_assoc]
      exact hseq
    | Struct fs =>
      simp only [wfValue] at hwf
      simp only [depthValue] at hd
      have hflds := decodeFieldsWith_encodeFields (decodeAny fuel) fs rest
        (by
          cases fs with
          | Named vs =>
            simp only [wfFields, Bool.and_eq_true, decide_eq_true_eq] at hwf
            exact hwf.1
          | Unnamed vs =>
            simp only [wfFields, Bool.and_eq_true, decide_eq_true_eq] at hwf
            exact hwf.1
          | Unit => trivial)
        (by
          cases fs with
          | Named vs =>
            simp only [wfFields, Bool.and_eq_true, decide_eq_true_eq] at hwf
            simp only [depthFields] at hd
            exact fun v hv r => ih v r (wfVec_mem vs v hwf.2 hv)
              (Nat.le_trans (depthVec_mem_le vs v hv) (by omega))
          | Unnamed vs =>
            simp only [wfFields, Bool.and_eq_true, decide_eq_true_eq] at hwf
            simp only [depthFields] at hd
            exact fun v hv r => ih v r (wfVec_mem vs v hwf.2 hv)
              (Nat.le_trans (depthVec_mem_le vs v hv) (by omega))
          | Unit => exact fun v hv => absurd hv (by simp))
      simp [encodeAny, decodeAny, hflds]
    | Enum idx fs =>
      simp only [wfValue, Bool.and_eq_true, decide_eq_true_eq] at hwf
      obtain ⟨hidx, hfs⟩ := hwf
      simp only [depthValue] at hd
      have hflds := decodeFieldsWith_encodeFields (decodeAny fuel) fs rest
        (by
          cases fs with
          | Named vs =>
            simp only [wfFields, Bool.and_eq_true, decide_eq_true_eq] at hfs
            exact hfs.1
          | Unnamed vs =>
            simp only [wfFields, Bool.and_eq_true, decide_eq_true_eq] at hfs
            exact hfs.1
          | Unit => trivial)
        (by
          cases fs with
          | Named vs =>
            simp only [wfFields, Bool.and_eq_true, decide_eq_true_eq] at hfs
            simp only [depthFields] at hd
            exact fun v hv r => ih v r (wfVec_mem vs v hfs.2 hv)
              (Nat.le_trans (depthVec_mem_le vs v hv) (by omega))
          | Unnamed vs =>
            simp only [wfFields, Bool.and_eq_true, decide_eq_true_eq] at hfs
            simp only [depthFields] at hd
            exact fun v hv r => ih v r (wfVec_mem vs v hfs.2 hv)
              (Nat.le_trans (depthVec_mem_le vs v hv) (by omega))
          | Unit => exact fun v hv => absurd hv (by simp))
      simp [encodeAny, decodeAny, hflds]
    | Vec ty vs =>
      simp only [wfValue, Bool.and_eq_true, decide_eq_true_eq] at hwf
      obtain ⟨⟨hty, hlen⟩, hvec⟩ := hwf
      simp only [depthValue] at hd
      have helem : ∀ v ∈ vs, ∀ r : List Nat,
          decodeAny fuel (encodeAny v ++ r) = Except.ok (v, r) :=
        fun v hv r => ih v r (wfVec_mem vs v hvec hv)
          (Nat.le_trans (depthVec_mem_le vs v hv) (by omega))
      have hseq := decodeSeq_encodeVec (decodeAny fuel) (Value.Vec ty) vs rest hlen helem
      simp only [encodeAny, decodeAny, List.cons_append, List.append_assoc]
      exact hseq
    | TreeSet ty vs =>
      simp only [wfValue, Bool.and_eq_true, decide_eq_true_eq] at hwf
      obtain ⟨⟨hty, hlen⟩, hvec⟩ := hwf
      simp only [depthValue] at hd
      have helem : ∀ v ∈ vs, ∀ r : List Nat,
          decodeAny fuel (encodeAny v ++ r) = Except.ok (v, r) :=
        fun v hv r => ih v r (wfVec_mem vs v hvec hv)
          (Nat.le_trans (depthVec_mem_le vs v hv) (by omega))
      have hseq := decodeSeq_encodeVec (decodeAny fuel) (Value.TreeSet ty) vs rest hlen helem
      simp only [encodeAny, decodeAny, List.cons_append, List.append_assoc]
      exact hseq
    | HashSet ty vs =>
      simp only [wfValue, Bool.and_eq_true, decide_eq_true_eq] at hwf
      obtain ⟨⟨hty, hlen⟩, hvec⟩ := hwf
      simp only [depthValue] at hd
      have helem : ∀ v ∈ vs, ∀ r : List Nat,
          decodeAny fuel (encodeAny v ++ r) = Except.ok (v, r) :=
        fun v hv r => ih v r (wfVec_mem vs v hvec hv)
          (Nat.le_trans (depthVec_mem_le vs v hv) (by omega))
      have hseq := decodeSeq_encodeVec (decodeAny fuel) (Value.HashSet ty) vs rest hlen helem
      simp only [encodeAny, decodeAny, List.cons_append, List.append_assoc]
      exact hseq
    | TreeMap tyk tyv kvs =>
      simp only [wfValue, Bool.and_eq_true, decide_eq_true_eq] at hwf
      obtain ⟨⟨⟨htyk, htyv⟩, hlen⟩, hmp⟩ := hwf
      simp only [depthValue] at hd
      have helem : ∀ p ∈ kvs,
          (∀ r : List Nat, decodeAny fuel (encodeAny p.1 ++ r) = Except.ok (p.1, r)) ∧
          (∀ r : List Nat, decodeAny fuel (encodeAny p.2 ++ r) = Except.ok (p.2, r)) := by
        intro p hp
        constructor
        · exact fun r => ih p.1 r (wfMap_mem kvs p hmp hp).1
            (Nat.le_trans (depthMap_mem_le kvs p hp).1 (by omega))
        · exact fun r => ih p.2 r (wfMap_mem kvs p hmp hp).2
            (Nat.le_trans (depthMap_mem_le kvs p hp).2 (by omega))
      have hseq := decodeSeqKV_encodeMap (decodeAny fuel) (Value.TreeMap tyk tyv) kvs rest
        hlen helem
      simp only [encodeAny, decodeAny, List.cons_append, List.append_assoc]
      exact hseq
    | HashMap tyk tyv kvs =>
      simp only [wfValue, Bool.and_eq_true, decide_eq_true_eq] at hwf
      obtain ⟨⟨⟨htyk, htyv⟩, hlen⟩, hmp⟩ := hwf
      simp only [depthValue] at hd
      have helem : ∀ p ∈ kvs,
          (∀ r : List Nat, decodeAny fuel (encodeAny p.1 ++ r) = Except.ok (p.1, r)) ∧
          (∀ r : List Nat, decodeAny fuel (encodeAny p.2 ++ r) = Except.ok (p.2, r)) := by
        intro p hp
        constructor
        · exact fun r => ih p.1 r (wfMap_mem kvs p hmp hp).1
            (Nat.le_trans (depthMap_mem_le kvs p hp).1 (by omega))
        · exact fun r => ih p.2 r (wfMap_mem kvs p hmp hp).2
            (Nat.le_trans (depthMap_mem_le kvs p hp).2 (by omega))
      have hseq := decodeSeqKV_encodeMap (decodeAny fuel) (Value.HashMap tyk tyv) kvs rest
        hlen helem
      simp only [encodeAny, decodeAny, List.cons_append, List.append_assoc]
      exact hseq
    | Custom ty data =>
      simp only [wfValue, Bool.and_eq_true, decide_eq_true_eq] at hwf
      obtain ⟨⟨⟨⟨h128, h256⟩, hlen⟩, hbytes⟩, hhandle⟩ := hwf
      have hne0 : ty ≠ 0 := by omega
      have hne1 : ty ≠ 1 := by omega
      have hne2 : ty ≠ 2 := by omega
      have hne3 : ty ≠ 3 := by omega
      have hne4 : ty ≠ 4 := by omega
      have hne5 : ty ≠ 5 := by omega
      have hne6 : ty ≠ 6 := by omega
      have hne7 : ty ≠ 7 := by omega
      have hne8 : ty ≠ 8 := by omega
      have hne9 : ty ≠ 9 := by omega
      have hne10 : ty ≠ 10 := by omega
      have hne11 : ty ≠ 11 := by omega
      have hne12 : ty ≠ 12 := by omega
      have hne13 : ty ≠ 13 := by omega
      have hne14 : ty ≠ 14 := by omega
      have hne15 : ty ≠ 15 := by omega
      have hne16 : ty ≠ 16 := by omega
      have hne20 : ty ≠ 20 := by omega
      have hne21 : ty ≠ 21 := by omega
      have hne25 : ty ≠ 25 := by omega
      have hne26 : ty ≠ 26 := by omega
      have hne27 : ty ≠ 27 := by omega
      have hne28 : ty ≠ 28 := by omega
      have hne29 : ty ≠ 29 := by omega
      have h1 : readN 4 (natToLe 4 data.length ++ (data ++ rest)) =
          Except.ok (natToLe 4 data.length, data ++ rest) :=
        readN_of_length 4 _ _ (natToLe_length 4 _)
      have h2 : readN (leToNat (natToLe 4 data.length)) (data ++ rest) =
          Except.ok (data, rest) := by
        rw [leToNat_natToLe, Nat.mod_eq_of_lt (show data.length < 256 ^ 4 by omega)]
        exact readN_of_length _ _ _ rfl
      simp [encodeAny, decodeAny, List.append_assoc, hne0, hne1, hne2, hne3, hne4, hne5,
        hne6, hne7, hne8, hne9, hne10, hne11, hne12, hne13, hne14, hne15, hne16, hne20,
        hne21, hne25, hne26, hne27, hne28, hne29, h128, h1, h2]

mutual

theorem depth_le_len : ∀ v : Value, depthValue v ≤ (encodeAny v).length
  | Value.Unit => by simp [depthValue, encodeAny]
  | Value.Bool b => by simp [depthValue, encodeAny]
  | Value.I8 i => by simp [depthValue, encodeAny]
  | Value.I16 i => by simp [depthValue, encodeAny]
  | Value.I32 i => by simp [depthValue, encodeAny]
  | Value.I64 i => by simp [depthValue, encodeAny]
  | Value.I128 i => by simp [depthValue, encodeAny]
  | Value.U8 n => by simp [depthValue, encodeAny]
  | Value.U16 n => by simp [depthValue, encodeAny]
  | Value.U32 n => by simp [depthValue, encodeAny]
  | Value.U64 n => by simp [depthValue, encodeAny]
  | Value.U128 n => by simp [depthValue, encodeAny]
  | Value.String s => by simp [depthValue, encodeAny]
  | Value.Option none => by simp [depthValue, encodeAny]
  | Value.Option (some v) => by
    have := depth_le_len v
    simp only [depthValue, encodeAny, List.length_cons]
    omega
  | Value.Box v => by
    have := depth_le_len v
    simp only [depthValue, encodeAny, List.length_cons]
    omega
  | Value.Array ty vs => by
    have := depthVec_le_len vs
    simp only [depthValue, encodeAny, List.length_cons, List.length_append, natToLe_length]
    omega
  | Value.Tuple vs => by
    have := depthVec_le_len vs
    simp only [depthValue, encodeAny, List.length_cons, List.length_append, natToLe_length]
    omega
  | Value.Struct fs => by
    have := depthFields_le_len fs
    simp only [depthValue, encodeAny, List.length_cons]
    omega
  | Value.Enum idx fs => by
    have := depthFields_le_len fs
    simp only [depthValue, encodeAny, List.length_cons]
    omega
  | Value.Vec ty vs => by
    have := depthVec_le_len vs
    simp only [depthValue, encodeAny, List.length_cons, List.length_append, natToLe_length]
    omega
  | Value.TreeSet ty vs => by
    have := depthVec_le_len vs
    simp only [depthValue, encodeAny, List.length_cons, List.length_append, natToLe_length]
    omega
  | Value.HashSet ty vs => by
    have := depthVec_le_len vs
    simp only [depthValue, encodeAny, List.length_cons, List.length_append, natToLe_length]
    omega
  | Value.TreeMap tyk tyv kvs => by
    have := depthMap_le_len kvs
    simp only [depthValue, encodeAny, List.length_cons, List.length_append, natToLe_length]
    omega
  | Value.HashMap tyk tyv kvs => by
    have := depthMap_le_len kvs
    simp only [depthValue, encodeAny, List.length_cons, List.length_append, natToLe_length]
    omega
  | Value.Custom ty data => by simp [depthValue, encodeAny]

theorem depthVec_le_len : ∀ vs : List Value, depthVec vs ≤ (encodeVec vs).length
  | [] => by simp [depthVec, encodeVec]
  | v :: rest => by
    have h1 := depth_le_len v
    have h2 := depthVec_le_len rest
    simp only [depthVec, encodeVec, List.length_append]
    omega

theorem depthMap_le_len : ∀ kvs : List (Value × Value), depthMap kvs ≤ (encodeMap kvs).length
  | [] => by simp [depthMap, encodeMap]
  | (k, v) :: rest => by
    have h1 := depth_le_len k
    have h2 := depth_le_len v
    have h3 := depthMap_le_len rest
    simp only [depthMap, encodeMap, List.length_append]
    omega

theorem depthFields_le_len : ∀ fs : Fields, depthFields fs ≤ (encodeFields fs).length
  | Fields.Named vs => by
    have := depthVec_le_len vs
    simp only [depthFields, encodeFields, List.length_cons, List.length_append, natToLe_length]
    omega
  | Fields.Unnamed vs => by
    have := depthVec_le_len vs
    simp only [depthFields, encodeFields, List.length_cons, List.length_append, natToLe_length]
    omega
  | Fields.Unit => by simp [depthFields, encodeFields]

end

/-- Round trip at the payload level: parsing the canonical encoding of a
well-formed value gives the value back. -/
theorem parseAny_encodeAny (v : Value) (h : wfValue v = true) :
    parseAny (encodeAny v) = Except.ok v := by
  have h1 := decodeAny_encodeAny ((encodeAny v).length + 1) v [] h
    (by have := depth_le_len v; omega)
  rw [List.append_nil] at h1
  simp [parseAny, h1]

/-- Insert into a sorted list, keeping ascending order. -/
def insertSorted (x : Nat) : List Nat → List Nat
  | [] => [x]
  | y :: rest => if x ≤ y then x :: y :: rest else y :: insertSorted x rest

/-- Modelled from the spec: ascending key order of a `BTreeSet<BID>`
(`move_to_bucket` collects candidate bucket ids into a `BTreeSet`). -/
def sortKeys (l : List Nat) : List Nat :=
  l.foldr insertSorted []

theorem mem_insertSorted (x y : Nat) (l : List Nat) :
    y ∈ insertSorted x l ↔ y = x ∨ y ∈ l := by
  induction l with
  | nil => simp [insertSorted]
  | cons z rest ih =>
    rw [insertSorted]
    by_cases h : x ≤ z
    · rw [if_pos h]
      simp
    · rw [if_neg h]
      simp only [List.mem_cons, ih]
      tauto

theorem mem_sortKeys (l : List Nat) (x : Nat) : x ∈ sortKeys l ↔ x ∈ l := by
  induction l with
  | nil => simp [sortKeys]
  | cons y rest ih =>
    simp only [sortKeys, List.foldr_cons, mem_insertSorted, List.mem_cons]
    rw [show List.foldr insertSorted [] rest = sortKeys rest from rfl, ih]

/-- Modelled from the spec (§4.4): the transaction context.  It owns the
ledger shadows for components, resource definitions, vaults and storages,
and allocates fresh ids from per-kind counters (`radix-engine::Runtime`). -/
structure Runtime where
  nextBucketId : Nat
  nextRid : Nat
  nextVaultId : Nat
  nextSid : Nat
  nextResource : Nat
  nextComponent : Nat
  components : List (Address × Component)
  resource_defs : List (Address × ResourceDef)
  vaults : List (Nat × Vault)
  storages : List (Nat × Storage)
deriving DecidableEq, Repr

/-- Modelled from the spec: `Runtime::new_bucket_id`. -/
def Runtime.new_bucket_id (rt : Runtime) : Nat × Runtime :=
  (rt.nextBucketId, { rt with nextBucketId := rt.nextBucketId + 1 })

/-- Modelled from the spec: `Runtime::new_rid`. -/
def Runtime.new_rid (rt : Runtime) : Nat × Runtime :=
  (rt.nextRid, { rt with nextRid := rt.nextRid + 1 })

/-- Modelled from the spec: `Runtime::new_vault_id`. -/
def Runtime.new_vault_id (rt : Runtime) : Nat × Runtime :=
  (rt.nextVaultId, { rt with nextVaultId := rt.nextVaultId + 1 })

/-- Modelled from the spec: `Runtime::new_sid`. -/
def Runtime.new_sid (rt : Runtime) : Nat × Runtime :=
  (rt.nextSid, { rt with nextSid := rt.nextSid + 1 })

/-- Modelled from the spec: `Runtime::new_resource_address`. -/
def Runtime.new_resource_address (rt : Runtime) : Address × Runtime :=
  (Address.resourceAddress rt.nextResource, { rt with nextResource := rt.nextResource + 1 })

/-- Modelled from the spec: `Runtime::new_component_address`. -/
def Runtime.new_component_address (rt : Runtime) : Address × Runtime :=
  (Address.component rt.nextComponent, { rt with nextComponent := rt.nextComponent + 1 })

/-- The transient state of a `Process` invocation frame
(`radix-engine::execution::Process`), with the `vm` field reduced to the
current invocation package (`self.vm.invocation.package`, the only part the
embedded handlers read). -/
structure Process where
  buckets : List (Nat × Bucket)
  references : List (Nat × LockedBucket)
  locked_buckets : List (Nat × LockedBucket)
  moving_buckets : List (Nat × Bucket)
  moving_references : List (Nat × LockedBucket)
  vmPackage : Option Address
deriving DecidableEq, Repr

/-- A fresh, not-yet-started frame (`Process::new`). -/
def Process.new : Process :=
  ⟨[], [], [], [], [], none⟩

/-- `Process::package`: the current package, failing if the VM has not
started. -/
def Process.package (p : Process) : Except RuntimeError Address :=
  match p.vmPackage with
  | some a => Except.ok a
  | none => Except.error RuntimeError.VmNotStarted

/-- Clones of the shared `Rc<LockedBucket>` for `bid` that live in one frame:
its `locked_buckets` entry plus every `BucketRef` in `references` and
`moving_references` that points at it (`Rc::strong_count` counts exactly
these handles). -/
def Process.localClones (p : Process) (bid : Nat) : Nat :=
  (if (alookup p.locked_buckets bid).isSome then 1 else 0)
    + (p.references.filter (fun e => e.2.bucketId = bid)).length
    + (p.moving_references.filter (fun e => e.2.bucketId = bid)).length

/-- `Rc::strong_count` of the `LockedBucket` for `bid` over the live frames. -/
def rcStrongCount (frames : List Process) (bid : Nat) : Nat :=
  (frames.map (fun p => p.localClones bid)).sum

/-- `Process::put_bucket`. -/
def Process.put_bucket (p : Process) (bid : Nat) (bucket : Bucket) : Process :=
  { p with buckets := ainsert p.buckets bid bucket }

/-- `Process::put_buckets_and_refs`. -/
def Process.put_buckets_and_refs (p : Process) (bs : List (Nat × Bucket))
    (rs : List (Nat × LockedBucket)) : Process :=
  { p with buckets := aextend p.buckets bs, references := aextend p.references rs }

/-- `Process::take_moving_buckets_and_refs`: drain both moving sets. -/
def Process.take_moving_buckets_and_refs (p : Process) :
    List (Nat × Bucket) × List (Nat × LockedBucket) × Process :=
  (p.moving_buckets, p.moving_references,
    { p with moving_buckets := [], moving_references := [] })

/-- A walker classification: `fn(&mut Self, BID) -> Result<BID, RuntimeError>`
with the frame state threaded explicitly. -/
abbrev ClassFn := Process → Nat → (Except RuntimeError Nat) × Process

/-- `Process::move_buckets`: claim the bucket out of the owned set into the
moving set; fail with `BucketNotFound` if it is not owned. -/
def move_buckets : ClassFn := fun p bid =>
  match alookup p.buckets bid with
  | none => (Except.error (RuntimeError.BucketNotFound bid), p)
  | some bucket =>
    (Except.ok bid,
      { p with buckets := aerase p.buckets bid,
               moving_buckets := ainsert p.moving_buckets bid bucket })

/-- `Process::move_references`: claim the reference out of the owned set into
the moving set; fail with `ReferenceNotFound` if it is not owned. -/
def move_references : ClassFn := fun p rid =>
  match alookup p.references rid with
  | none => (Except.error (RuntimeError.ReferenceNotFound rid), p)
  | some bucket_ref =>
    (Except.ok rid,
      { p with references := aerase p.references rid,
               moving_references := ainsert p.moving_references rid bucket_ref })

/-- `Process::reject_buckets`. -/
def reject_buckets : ClassFn := fun p _ =>
  (Except.error RuntimeError.BucketMoveNotAllowed, p)

/-- `Process::reject_references`. -/
def reject_references : ClassFn := fun p _ =>
  (Except.error RuntimeError.ReferenceMoveNotAllowed, p)

/-- The identity classification of the spec's walker round-trip property. -/
def keep_buckets : ClassFn := fun p bid => (Except.ok bid, p)

/-- The identity classification on reference ids. -/
def keep_references : ClassFn := fun p rid => (Except.ok rid, p)

/-- `Process::visit_custom`: classify bucket- and reference-tagged custom
leaves, pass every other custom leaf through unchanged. -/
def visit_custom (bf rf : ClassFn) (p : Process) (ty : Nat) (data : List Nat) :
    (Except RuntimeError Value) × Process :=
  if ty = SCRYPTO_TYPE_BID then
    match idTryFrom data with
    | none => (Except.error (RuntimeError.InvalidData (DecodeError.InvalidCustomData ty)), p)
    | some bid =>
      match bf p bid with
      | (Except.error e, p1) => (Except.error e, p1)
      | (Except.ok bid1, p1) => (Except.ok (Value.Custom ty (idToVec bid1)), p1)
  else if ty = SCRYPTO_TYPE_RID then
    match idTryFrom data with
    | none => (Except.error (RuntimeError.InvalidData (DecodeError.InvalidCustomData ty)), p)
    | some rid =>
      match rf p rid with
      | (Except.error e, p1) => (Except.error e, p1)
      | (Except.ok rid1, p1) => (Except.ok (Value.Custom ty (idToVec rid1)), p1)
  else (Except.ok (Value.Custom ty data), p)

mutual

/-- `Process::visit`: structural walk applying `bf`/`rf` at bucket- and
reference-tagged custom leaves. -/
def visit (bf rf : ClassFn) (p : Process) : Value → (Except RuntimeError Value) × Process
  | Value.Unit => (Except.ok Value.Unit, p)
  | Value.Bool b => (Except.ok (Value.Bool b), p)
  | Value.I8 i => (Except.ok (Value.I8 i), p)
  | Value.I16 i => (Except.ok (Value.I16 i), p)
  | Value.I32 i => (Except.ok (Value.I32 i), p)
  | Value.I64 i => (Except.ok (Value.I64 i), p)
  | Value.I128 i => (Except.ok (Value.I128 i), p)
  | Value.U8 n => (Except.ok (Value.U8 n), p)
  | Value.U16 n => (Except.ok (Value.U16 n), p)
  | Value.U32 n => (Except.ok (Value.U32 n), p)
  | Value.U64 n => (Except.ok (Value.U64 n), p)
  | Value.U128 n => (Except.ok (Value.U128 n), p)
  | Value.String str => (Except.ok (Value.String str), p)
  | Value.Option o =>
    match o with
    | some v =>
      match visit bf rf p v with
      | (Except.error e, p1) => (Except.error e, p1)
      | (Except.ok v1, p1) => (Except.ok (Value.Option (some v1)), p1)
    | none => (Except.ok (Value.Option none), p)
  | Value.Box v =>
    match visit bf rf p v with
    | (Except.error e, p1) => (Except.error e, p1)
    | (Except.ok v1, p1) => (Except.ok (Value.Box v1), p1)
  | Value.Array ty vs =>
    match visit_vec bf rf p vs with
    | (Except.error e, p1) => (Except.error e, p1)
    | (Except.ok vs1, p1) => (Except.ok (Value.Array ty vs1), p1)
  | Value.Tuple vs =>
    match visit_vec bf rf p vs with
    | (Except.error e, p1) => (Except.error e, p1)
    | (Except.ok vs1, p1) => (Except.ok (Value.Tuple vs1), p1)
  | Value.Struct fs =>
    match visit_fields bf rf p fs with
    | (Except.error e, p1) => (Except.error e, p1)
    | (Except.ok fs1, p1) => (Except.ok (Value.Struct fs1), p1)
  | Value.Enum idx fs =>
    match visit_fields bf rf p fs with
    | (Except.error e, p1) => (Except.error e, p1)
    | (Except.ok fs1, p1) => (Except.ok (Value.Enum idx fs1), p1)
  | Value.Vec ty vs =>
    match visit_vec bf rf p vs with
    | (Except.error e, p1) => (Except.error e, p1)
    | (Except.ok vs1, p1) => (Except.ok (Value.Vec ty vs1), p1)
  | Value.TreeSet ty vs =>
    match visit_vec bf rf p vs with
    | (Except.error e, p1) => (Except.error e, p1)
    | (Except.ok vs1, p1) => (Except.ok (Value.TreeSet ty vs1), p1)
  | Value.HashSet ty vs =>
    match visit_vec bf rf p vs with
    | (Except.error e, p1) => (Except.error e, p1)
    | (Except.ok vs1, p1) => (Except.ok (Value.HashSet ty vs1), p1)
  | Value.TreeMap tyk tyv kvs =>
    match visit_map bf rf p kvs with
    | (Except.error e, p1) => (Except.error e, p1)
    | (Except.ok kvs1, p1) => (Except.ok (Value.TreeMap tyk tyv kvs1), p1)
  | Value.HashMap tyk tyv kvs =>
    match visit_map bf rf p kvs with
    | (Except.error e, p1) => (Except.error e, p1)
    | (Except.ok kvs1, p1) => (Except.ok (Value.HashMap tyk tyv kvs1), p1)
  | Value.Custom ty data => visit_custom bf rf p ty data

/-- `Process::visit_vec`. -/
def visit_vec (bf rf : ClassFn) (p : Process) :
    List Value → (Except RuntimeError (List Value)) × Process
  | [] => (Except.ok [], p)
  | v :: rest =>
    match visit bf rf p v with
    | (Except.error e, p1) => (Except.error e, p1)
    | (Except.ok v1, p1) =>
      match visit_vec bf rf p1 rest with
      | (Except.error e, p2) => (Except.error e, p2)
      | (Except.ok vs1, p2) => (Except.ok (v1 :: vs1), p2)

/-- `Process::visit_map`. -/
def visit_map (bf rf : ClassFn) (p : Process) :
    List (Value × Value) → (Except RuntimeError (List (Value × Value))) × Process
  | [] => (Except.ok [], p)
  | (k, v) :: rest =>
    match visit bf rf p k with
    | (Except.error e, p1) => (Except.error e, p1)
    | (Except.ok k1, p1) =>
      match visit bf rf p1 v with
      | (Except.error e, p2) => (Except.error e, p2)
      | (Except.ok v1, p2) =>
        match visit_map bf rf p2 rest with
        | (Except.error e, p3) => (Except.error e, p3)
        | (Except.ok kvs1, p3) => (Except.ok ((k1, v1) :: kvs1), p3)

/-- `Process::visit_fields`. -/
def visit_fields (bf rf : ClassFn) (p : Process) :
    Fields → (Except RuntimeError Fields) × Process
  | Fields.Named vs =>
    match visit_vec bf rf p vs with
    | (Except.error e, p1) => (Except.error e, p1)
    | (Except.ok vs1, p1) => (Except.ok (Fields.Named vs1), p1)
  | Fields.Unnamed vs =>
    match visit_vec bf rf p vs with
    | (Except.error e, p1) => (Except.error e, p1)
    | (Except.ok vs1, p1) => (Except.ok (Fields.Unnamed vs1), p1)
  | Fields.Unit => (Except.ok Fields.Unit, p)

end

/-- `Process::process_data`: parse, walk, re-encode. -/
def process_data (bf rf : ClassFn) (p : Process) (data : List Nat) :
    (Except RuntimeError (List Nat)) × Process :=
  match parseAny data with
  | Except.error e => (Except.error (RuntimeError.InvalidData e), p)
  | Except.ok v =>
    match visit bf rf p v with
    | (Except.error e, p1) => (Except.error e, p1)
    | (Except.ok v1, p1) => (Except.ok (encodeAny v1), p1)

/-- `Process::finalize`: fails with `ResourceLeak` if any owned bucket has
nonzero balance, any locked bucket remains, or any reference remains. -/
def finalize (p : Process) : Except RuntimeError Unit :=
  if p.buckets.all (fun e => e.2.amount = 0)
      && p.locked_buckets.isEmpty && p.references.isEmpty then
    Except.ok ()
  else
    Except.error RuntimeError.ResourceLeak

/-- Loop of `Process::move_to_bucket`: remove candidate buckets (ascending
id order) until the needed amount is covered, tracking the remainder. -/
def move_to_bucket_loop (buckets : List (Nat × Bucket)) :
    List Nat → Nat → Nat → List (Nat × Bucket) × Nat × Nat
  | [], needed, remainder => (buckets, needed, remainder)
  | c :: rest, needed, remainder =>
    if needed = 0 then (buckets, needed, remainder)
    else
      let avail := ((alookup buckets c).getD ⟨0, Address.package 0⟩).amount
      let buckets1 := aerase buckets c
      if needed < avail then move_to_bucket_loop buckets1 rest 0 (avail - needed)
      else move_to_bucket_loop buckets1 rest (needed - avail) remainder

/-- `Process::move_to_bucket`: withdraw `amount` of `resource` into the
reserved bucket id `bid`.  The source's `assert!(!self.buckets.contains_key
(&bid))` appears as a hypothesis of the theorems about this function. -/
def move_to_bucket (rt : Runtime) (p : Process) (amount : Nat) (resource : Address)
    (bid : Nat) : (Except RuntimeError Unit) × Runtime × Process :=
  let candidates :=
    sortKeys ((p.buckets.filter (fun e => e.2.resource = resource)).map (fun e => e.1))
  match move_to_bucket_loop p.buckets candidates amount 0 with
  | (buckets1, needed, remainder) =>
    if needed = 0 then
      let (rbid, rt1) := rt.new_bucket_id
      let buckets2 := ainsert buckets1 rbid ⟨remainder, resource⟩
      let buckets3 := ainsert buckets2 bid ⟨amount, resource⟩
      (Except.ok (), rt1, { p with buckets := buckets3 })
    else
      (Except.error (RuntimeError.AccountingError BucketError.InsufficientBalance), rt,
        { p with buckets := buckets1 })

/-- `Process::handle_create_bucket` (`CREATE_EMPTY_BUCKET`). -/
def handle_create_bucket (rt : Runtime) (p : Process) (resource : Address) :
    (Except RuntimeError Nat) × Runtime × Process :=
  let new_bucket : Bucket := ⟨0, resource⟩
  let (new_bid, rt1) := rt.new_bucket_id
  (Except.ok new_bid, rt1, { p with buckets := ainsert p.buckets new_bid new_bucket })

/-- `Process::handle_put_into_bucket` (`PUT_INTO_BUCKET`): removes the source
bucket `other`, then merges it into the destination `bucket`. -/
def handle_put_into_bucket (rt : Runtime) (p : Process) (bucket other : Nat) :
    (Except RuntimeError Unit) × Runtime × Process :=
  match alookup p.buckets other with
  | none => (Except.error (RuntimeError.BucketNotFound other), rt, p)
  | some otherB =>
    let p1 := { p with buckets := aerase p.buckets other }
    match alookup p1.buckets bucket with
    | none => (Except.error (RuntimeError.BucketNotFound bucket), rt, p1)
    | some b =>
      match b.put otherB with
      | Except.error e => (Except.error (RuntimeError.AccountingError e), rt, p1)
      | Except.ok b1 =>
        (Except.ok (), rt, { p1 with buckets := ainsert p1.buckets bucket b1 })

/-- `Process::handle_take_from_bucket` (`TAKE_FROM_BUCKET`). -/
def handle_take_from_bucket (rt : Runtime) (p : Process) (bucket : Nat) (amount : Nat) :
    (Except RuntimeError Nat) × Runtime × Process :=
  match alookup p.buckets bucket with
  | none => (Except.error (RuntimeError.BucketNotFound bucket), rt, p)
  | some b =>
    match b.take amount with
    | Except.error e => (Except.error (RuntimeError.AccountingError e), rt, p)
    | Except.ok (new_bucket, deducted) =>
      let p1 := { p with buckets := ainsert p.buckets bucket deducted }
      let (new_bid, rt1) := rt.new_bucket_id
      (Except.ok new_bid, rt1, { p1 with buckets := ainsert p1.buckets new_bid new_bucket })

/-- `Process::handle_get_bucket_amount` (`GET_BUCKET_AMOUNT`): owned buckets
first, then locked buckets. -/
def handle_get_bucket_amount (rt : Runtime) (p : Process) (bucket : Nat) :
    (Except RuntimeError Nat) × Runtime × Process :=
  match (alookup p.buckets bucket).map (fun b => b.amount) with
  | some a => (Except.ok a, rt, p)
  | none =>
    match (alookup p.locked_buckets bucket).map (fun lb => lb.bucket.amount) with
    | some a => (Except.ok a, rt, p)
    | none => (Except.error (RuntimeError.BucketNotFound bucket), rt, p)

/-- `Process::handle_create_reference` (`CREATE_REFERENCE`): first borrow
locks the bucket; repeated borrow clones the existing `LockedBucket`. -/
def handle_create_reference (rt : Runtime) (p : Process) (bucket : Nat) :
    (Except RuntimeError Nat) × Runtime × Process :=
  let (rid, rt1) := rt.new_rid
  match alookup p.locked_buckets bucket with
  | some bucket_rc =>
    (Except.ok rid, rt1, { p with references := ainsert p.references rid bucket_rc })
  | none =>
    match alookup p.buckets bucket with
    | none => (Except.error (RuntimeError.BucketNotFound bucket), rt1, p)
    | some b =>
      let lb : LockedBucket := ⟨bucket, b⟩
      (Except.ok rid, rt1,
        { p with buckets := aerase p.buckets bucket,
                 references := ainsert p.references rid lb,
                 locked_buckets := ainsert p.locked_buckets bucket lb })

/-- `Process::handle_drop_reference` (`DROP_REFERENCE`): remove the
reference; when the remaining strong count is one, revert the lock if this
frame holds it.  `others` are the other live frames contributing clones. -/
def handle_drop_reference (others : List Process) (rt : Runtime) (p : Process)
    (reference : Nat) : (Except RuntimeError Unit) × Runtime × Process :=
  match alookup p.references reference with
  | none => (Except.error (RuntimeError.ReferenceNotFound reference), rt, p)
  | some bucket =>
    let p1 := { p with references := aerase p.references reference }
    let bid := bucket.bucketId
    let count := rcStrongCount (p1 :: others) bid
    if count = 1 then
      match alookup p1.locked_buckets bid with
      | some b =>
        (Except.ok (), rt,
          { p1 with locked_buckets := aerase p1.locked_buckets bid,
                    buckets := ainsert p1.buckets bid b.intoBucket })
      | none => (Except.ok (), rt, p1)
    else (Except.ok (), rt, p1)

/-- `Process::handle_get_ref_amount` (`GET_REF_AMOUNT`). -/
def handle_get_ref_amount (rt : Runtime) (p : Process) (reference : Nat) :
    (Except RuntimeError Nat) × Runtime × Process :=
  match alookup p.references reference with
  | none => (Except.error (RuntimeError.ReferenceNotFound reference), rt, p)
  | some r => (Except.ok r.bucket.amount, rt, p)

/-- `Process::handle_create_vault` (`CREATE_EMPTY_VAULT`). -/
def handle_create_vault (rt : Runtime) (p : Process) (resource : Address) :
    (Except RuntimeError Nat) × Runtime × Process :=
  match p.package with
  | Except.error e => (Except.error e, rt, p)
  | Except.ok package =>
    let new_vault : Vault := ⟨⟨0, resource⟩, package⟩
    let (new_vid, rt1) := rt.new_vault_id
    (Except.ok new_vid, { rt1 with vaults := ainsert rt1.vaults new_vid new_vault }, p)

/-- `Process::handle_put_into_vault` (`PUT_INTO_VAULT`): removes the bucket
from the owned set, then deposits it into the vault. -/
def handle_put_into_vault (rt : Runtime) (p : Process) (vault bucket : Nat) :
    (Except RuntimeError Unit) × Runtime × Process :=
  match p.package with
  | Except.error e => (Except.error e, rt, p)
  | Except.ok package =>
    match alookup p.buckets bucket with
    | none => (Except.error (RuntimeError.BucketNotFound bucket), rt, p)
    | some other =>
      let p1 := { p with buckets := aerase p.buckets bucket }
      match alookup rt.vaults vault with
      | none => (Except.error (RuntimeError.VaultNotFound vault), rt, p1)
      | some v =>
        match v.put other package with
        | Except.error e => (Except.error (RuntimeError.AccountingError e), rt, p1)
        | Except.ok v1 =>
          (Except.ok (), { rt with vaults := ainsert rt.vaults vault v1 }, p1)

/-- `Process::handle_take_from_vault` (`TAKE_FROM_VAULT`). -/
def handle_take_from_vault (rt : Runtime) (p : Process) (vault : Nat) (amount : Nat) :
    (Except RuntimeError Nat) × Runtime × Process :=
  match p.package with
  | Except.error e => (Except.error e, rt, p)
  | Except.ok package =>
    match alookup rt.vaults vault with
    | none => (Except.error (RuntimeError.VaultNotFound vault), rt, p)
    | some v =>
      match v.take amount package with
      | Except.error e => (Except.error (RuntimeError.AccountingError e), rt, p)
      | Except.ok (new_bucket, v1) =>
        let rt1 := { rt with vaults := ainsert rt.vaults vault v1 }
        let (new_bid, rt2) := rt1.new_bucket_id
        (Except.ok new_bid, rt2, { p with buckets := ainsert p.buckets new_bid new_bucket })

/-- `Process::handle_mint_resource` (`MINT_RESOURCE`): only the resource's
authority package may mint; fixed resources cannot be minted. -/
def handle_mint_resource (rt : Runtime) (p : Process) (amount : Nat)
    (resource : Address) : (Except RuntimeError Nat) × Runtime × Process :=
  match p.package with
  | Except.error e => (Except.error e, rt, p)
  | Except.ok package =>
    match alookup rt.resource_defs resource with
    | none => (Except.error (RuntimeError.ResourceNotFound resource), rt, p)
    | some rdef =>
      match rdef.auth with
      | some pkg =>
        if package ≠ pkg then
          (Except.error RuntimeError.UnauthorizedToMint, rt, p)
        else
          let rdef1 := { rdef with supply := rdef.supply + amount }
          let rt1 := { rt with resource_defs := ainsert rt.resource_defs resource rdef1 }
          let bucket : Bucket := ⟨amount, resource⟩
          let (bid, rt2) := rt1.new_bucket_id
          (Except.ok bid, rt2, { p with buckets := ainsert p.buckets bid bucket })
      | none => (Except.error RuntimeError.UnableToMintFixedResource, rt, p)

/-- `Process::handle_create_resource_fixed` (`CREATE_RESOURCE_FIXED`): the
whole fixed supply is minted up front into a fresh bucket. -/
def handle_create_resource_fixed (rt : Runtime) (p : Process)
    (metadata : List (String × String)) (supply : Nat) :
    (Except RuntimeError (Address × Nat)) × Runtime × Process :=
  let resource : ResourceDef := ⟨metadata, none, supply, none⟩
  let (address, rt1) := rt.new_resource_address
  if (alookup rt1.resource_defs address).isSome then
    (Except.error (RuntimeError.ResourceAlreadyExists address), rt1, p)
  else
    let rt2 := { rt1 with resource_defs := ainsert rt1.resource_defs address resource }
    let bucket : Bucket := ⟨supply, address⟩
    let (bid, rt3) := rt2.new_bucket_id
    (Except.ok (address, bid), rt3, { p with buckets := ainsert p.buckets bid bucket })

/-- `Process::handle_get_component_info` (`GET_COMPONENT_INFO`). -/
def handle_get_component_info (rt : Runtime) (p : Process) (component : Address) :
    (Except RuntimeError (Address × String)) × Runtime × Process :=
  match p.package with
  | Except.error e => (Except.error e, rt, p)
  | Except.ok package =>
    match alookup rt.components component with
    | none => (Except.error (RuntimeError.ComponentNotFound component), rt, p)
    | some com =>
      if package ≠ com.blueprint.1 then
        (Except.error RuntimeError.UnauthorizedAccess, rt, p)
      else
        (Except.ok com.blueprint, rt, p)

/-- `Process::handle_get_component_state` (`GET_COMPONENT_STATE`). -/
def handle_get_component_state (rt : Runtime) (p : Process) (component : Address) :
    (Except RuntimeError (List Nat)) × Runtime × Process :=
  match p.package with
  | Except.error e => (Except.error e, rt, p)
  | Except.ok package =>
    match alookup rt.components component with
    | none => (Except.error (RuntimeError.ComponentNotFound component), rt, p)
    | some com =>
      if package ≠ com.blueprint.1 then
        (Except.error RuntimeError.UnauthorizedAccess, rt, p)
      else
        (Except.ok com.state, rt, p)

/-- `Process::handle_put_component_state` (`PUT_COMPONENT_STATE`): the new
state is walked with the reject classification before the component is even
looked up, so a payload carrying a transient handle fails first. -/
def handle_put_component_state (rt : Runtime) (p : Process) (component : Address)
    (state : List Nat) : (Except RuntimeError Unit) × Runtime × Process :=
  match p.package with
  | Except.error e => (Except.error e, rt, p)
  | Except.ok package =>
    match process_data reject_buckets reject_references p state with
    | (Except.error e, p1) => (Except.error e, rt, p1)
    | (Except.ok new_state, p1) =>
      match alookup rt.components component with
      | none => (Except.error (RuntimeError.ComponentNotFound component), rt, p1)
      | some com =>
        if package ≠ com.blueprint.1 then
          (Except.error RuntimeError.UnauthorizedAccess, rt, p1)
        else
          (Except.ok (),
            { rt with components :=
                ainsert rt.components component ⟨com.blueprint, new_state⟩ }, p1)

/-- `Process::handle_get_storage_entry` (`GET_STORAGE_ENTRY`). -/
def handle_get_storage_entry (rt : Runtime) (p : Process) (storage : Nat)
    (key : List Nat) : (Except RuntimeError (Option (List Nat))) × Runtime × Process :=
  match p.package with
  | Except.error e => (Except.error e, rt, p)
  | Except.ok package =>
    match alookup rt.storages storage with
    | none => (Except.error (RuntimeError.StorageNotFound storage), rt, p)
    | some st =>
      if package ≠ st.auth then
        (Except.error RuntimeError.UnauthorizedAccess, rt, p)
      else
        (Except.ok (st.getEntry key), rt, p)

/-- `Process::handle_put_storage_entry` (`PUT_STORAGE_ENTRY`): key and value
are walked with the reject classification before the storage lookup. -/
def handle_put_storage_entry (rt : Runtime) (p : Process) (storage : Nat)
    (key value : List Nat) : (Except RuntimeError Unit) × Runtime × Process :=
  match p.package with
  | Except.error e => (Except.error e, rt, p)
  | Except.ok package =>
    match process_data reject_buckets reject_references p key with
    | (Except.error e, p1) => (Except.error e, rt, p1)
    | (Except.ok new_key, p1) =>
      match process_data reject_buckets reject_references p1 value with
      | (Except.error e, p2) => (Except.error e, rt, p2)
      | (Except.ok new_value, p2) =>
        match alookup rt.storages storage with
        | none => (Except.error (RuntimeError.StorageNotFound storage), rt, p2)
        | some st =>
          if package ≠ st.auth then
            (Except.error RuntimeError.UnauthorizedAccess, rt, p2)
          else
            let st1 := st.setEntry new_key new_value
            (Except.ok (), { rt with storages := ainsert rt.storages storage st1 }, p2)

/-- Argument processing in `Process::call`: walk every argument payload with
the move classification, stopping at the first error. -/
def process_args (p : Process) : List (List Nat) → (Except RuntimeError Unit) × Process
  | [] => (Except.ok (), p)
  | arg :: rest =>
    match process_data move_buckets move_references p arg with
    | (Except.error e, p1) => (Except.error e, p1)
    | (Except.ok _, p1) => process_args p1 rest

/-- Modelled from the spec: the guest execution inside `Process::run` is the
external WASM engine; this models a callee that performs no host calls and
returns the payload `ret`, followed by `run`'s move-walk of the returned
bytes (`process.rs` lines 242-251, which returns the original bytes). -/
def run_returning (ret : List Nat) (rt : Runtime) (p : Process) :
    (Except RuntimeError (List Nat)) × Runtime × Process :=
  match process_data move_buckets move_references p ret with
  | (Except.error e, p1) => (Except.error e, rt, p1)
  | (Except.ok _, p1) => (Except.ok ret, rt, p1)

/-- Unlock pass at the end of `Process::call`: each listed locked bucket is
removed and re-owned as a plain bucket. -/
def unlock_all (p : Process) : List Nat → Process
  | [] => p
  | bid :: rest =>
    match alookup p.locked_buckets bid with
    | some lb =>
      unlock_all
        { p with locked_buckets := aerase p.locked_buckets bid,
                 buckets := ainsert p.buckets bid lb.intoBucket } rest
    | none => unlock_all p rest

/-- `Process::call` with the child's guest behavior modelled by the returned
payload `ret` (see `run_returning`): move the argument resources out, spawn
the child with them, run it, finalize it, reclaim its moving resources, then
revert every locked bucket whose strong count fell to one.  `others` are
frames below this one still holding `BucketRef` clones. -/
def call_with_ret (others : List Process) (rt : Runtime) (p : Process)
    (args : List (List Nat)) (ret : List Nat) :
    (Except RuntimeError (List Nat)) × Runtime × Process :=
  match process_args p args with
  | (Except.error e, p1) => (Except.error e, rt, p1)
  | (Except.ok _, p1) =>
    match p1.take_moving_buckets_and_refs with
    | (buckets_out, references_out, p2) =>
      let child := Process.new.put_buckets_and_refs buckets_out references_out
      match run_returning ret rt child with
      | (Except.error e, rt1, _) => (Except.error e, rt1, p2)
      | (Except.ok result, rt1, child1) =>
        match finalize child1 with
        | Except.error e => (Except.error e, rt1, p2)
        | Except.ok _ =>
          match child1.take_moving_buckets_and_refs with
          | (buckets_in, references_in, _) =>
            let p3 := p2.put_buckets_and_refs buckets_in references_in
            let bids := (p3.locked_buckets.filter
              (fun e => rcStrongCount (p3 :: others) e.1 = 1)).map (fun e => e.2.bucketId)
            (Except.ok result, rt1, unlock_all p3 bids)

/-- Nat a bucket contributes to the total of resource `r`. -/
def bucketVal (r : Address) (b : Bucket) : Nat :=
  if b.resource = r then b.amount else 0

/-- Transient balance of resource `r` held by one frame: owned buckets,
balances inside its locked buckets, and buckets in flight in its moving set. -/
def Process.totalOf (p : Process) (r : Address) : Nat :=
  asum (bucketVal r) p.buckets + asum (fun lb => bucketVal r lb.bucket) p.locked_buckets
    + asum (bucketVal r) p.moving_buckets

/-- Total balance of resource `r` parked in vaults. -/
def Runtime.vaultTotal (rt : Runtime) (r : Address) : Nat :=
  asum (fun v => bucketVal r v.bucket) rt.vaults

/-- The conserved quantity of the spec: vault balances plus transient bucket
balances (including locked buckets) across the live frames. -/
def conservedTotal (r : Address) (rt : Runtime) (frames : List Process) : Nat :=
  rt.vaultTotal r + (frames.map (fun p => p.totalOf r)).sum

/-- C2: for every Process, finalize succeeds iff every owned bucket has zero
balance, the locked-bucket set is empty and the reference set is empty;
otherwise it fails with `ResourceLeak`. -/
theorem finalize_ok_iff (p : Process) :
    (finalize p = Except.ok () ↔
      ((∀ e ∈ p.buckets, (e.2 : Bucket).amount = 0) ∧
        p.locked_buckets = [] ∧ p.references = [])) ∧
    (finalize p ≠ Except.ok () → finalize p = Except.error RuntimeError.ResourceLeak) := by
  constructor
  · unfold finalize
    split
    · rename_i h
      simp only [Bool.and_eq_true, List.all_eq_true, decide_eq_true_eq,
        List.isEmpty_iff] at h
      exact ⟨fun _ => ⟨h.1.1, h.1.2, h.2⟩, fun _ => rfl⟩
    · rename_i h
      simp only [Bool.and_eq_true, List.all_eq_true, decide_eq_true_eq,
        List.isEmpty_iff] at h
      constructor
      · intro hok
        exact absurd hok (by simp)
      · intro hctr
        exact absurd ⟨⟨hctr.1, hctr.2.1⟩, hctr.2.2⟩ h
  · unfold finalize
    split
    · intro h
      exact absurd rfl h
    · intro _
      rfl

/-- Witness for `finalize_ok_iff`: a frame holding one zero bucket passes,
and the iff evaluates as expected on it. -/
theorem finalize_ok_iff_witness :
    finalize ⟨[(1, ⟨0, Address.resourceAddress 5⟩)], [], [], [], [], none⟩ = Except.ok () :=
  ((finalize_ok_iff ⟨[(1, ⟨0, Address.resourceAddress 5⟩)], [], [], [], [], none⟩).1).mpr
    ⟨by decide, rfl, rfl⟩

/-- C1: `handle_put_into_bucket` and `handle_put_into_vault` remove the
source bucket before resolving the destination; with a missing destination
they return an error but the removed balance is gone, so the conserved total
drops — the conservation property of the spec is violated by the code on
these error paths.  Evaluated at: one frame owning bucket 1 with 5 units of
resource 9, destination bucket id 2 (absent) respectively vault id 3
(absent). -/
theorem put_error_drops_conserved_total :
    (conservedTotal (Address.resourceAddress 9)
        ⟨9, 9, 9, 9, 9, 9, [], [], [], []⟩
        [⟨[(1, ⟨5, Address.resourceAddress 9⟩)], [], [], [], [], none⟩] = 5) ∧
    ((handle_put_into_bucket ⟨9, 9, 9, 9, 9, 9, [], [], [], []⟩
        ⟨[(1, ⟨5, Address.resourceAddress 9⟩)], [], [], [], [], none⟩ 2 1).1 =
      Except.error (RuntimeError.BucketNotFound 2)) ∧
    (conservedTotal (Address.resourceAddress 9)
        (handle_put_into_bucket ⟨9, 9, 9, 9, 9, 9, [], [], [], []⟩
          ⟨[(1, ⟨5, Address.resourceAddress 9⟩)], [], [], [], [], none⟩ 2 1).2.1
        [(handle_put_into_bucket ⟨9, 9, 9, 9, 9, 9, [], [], [], []⟩
          ⟨[(1, ⟨5, Address.resourceAddress 9⟩)], [], [], [], [], none⟩ 2 1).2.2] = 0) ∧
    ((handle_put_into_vault ⟨9, 9, 9, 9, 9, 9, [], [], [], []⟩
        ⟨[(1, ⟨5, Address.resourceAddress 9⟩)], [], [], [], [],
          some (Address.package 0)⟩ 3 1).1 =
      Except.error (RuntimeError.VaultNotFound 3)) ∧
    (conservedTotal (Address.resourceAddress 9)
        (handle_put_into_vault ⟨9, 9, 9, 9, 9, 9, [], [], [], []⟩
          ⟨[(1, ⟨5, Address.resourceAddress 9⟩)], [], [], [], [],
            some (Address.package 0)⟩ 3 1).2.1
        [(handle_put_into_vault ⟨9, 9, 9, 9, 9, 9, [], [], [], []⟩
          ⟨[(1, ⟨5, Address.resourceAddress 9⟩)], [], [], [], [],
            some (Address.package 0)⟩ 3 1).2.2] = 0) :=
  ⟨rfl, rfl, rfl, rfl, rfl⟩

theorem wf_bid_leaf (bid : Nat) :
    wfValue (Value.Custom SCRYPTO_TYPE_BID (idToVec bid)) = true := by
  simp only [wfValue, idToVec, SCRYPTO_TYPE_BID, SCRYPTO_TYPE_RID, Bool.and_eq_true,
    decide_eq_true_eq, List.all_eq_true, natToLe_length]
  refine ⟨⟨⟨⟨by omega, by omega⟩, by omega⟩, ?_⟩, ?_⟩
  · intro b hb
    exact natToLe_mem_lt 4 bid b hb
  · simp

theorem wf_rid_leaf (rid : Nat) :
    wfValue (Value.Custom SCRYPTO_TYPE_RID (idToVec rid)) = true := by
  simp only [wfValue, idToVec, SCRYPTO_TYPE_BID, SCRYPTO_TYPE_RID, Bool.and_eq_true,
    decide_eq_true_eq, List.all_eq_true, natToLe_length]
  refine ⟨⟨⟨⟨by omega, by omega⟩, by omega⟩, ?_⟩, ?_⟩
  · intro b hb
    exact natToLe_mem_lt 4 rid b hb
  · simp

theorem visit_bid_leaf (bf rf : ClassFn) (p : Process) (bid : Nat) (h : bid < 4294967296) :
    visit bf rf p (Value.Custom SCRYPTO_TYPE_BID (idToVec bid)) =
      (match bf p bid with
       | (Except.error e, p1) => (Except.error e, p1)
       | (Except.ok bid1, p1) =>
         (Except.ok (Value.Custom SCRYPTO_TYPE_BID (idToVec bid1)), p1)) := by
  rw [visit, visit_custom, if_pos rfl, idTryFrom_idToVec bid h]

theorem visit_rid_leaf (bf rf : ClassFn) (p : Process) (rid : Nat) (h : rid < 4294967296) :
    visit bf rf p (Value.Custom SCRYPTO_TYPE_RID (idToVec rid)) =
      (match rf p rid with
       | (Except.error e, p1) => (Except.error e, p1)
       | (Except.ok rid1, p1) =>
         (Except.ok (Value.Custom SCRYPTO_TYPE_RID (idToVec rid1)), p1)) := by
  rw [visit, visit_custom, if_neg (by simp [SCRYPTO_TYPE_BID, SCRYPTO_TYPE_RID]),
    if_pos rfl, idTryFrom_idToVec rid h]

theorem process_data_bid_leaf (bf rf : ClassFn) (p : Process) (bid : Nat)
    (h : bid < 4294967296) :
    process_data bf rf p (encodeAny (Value.Custom SCRYPTO_TYPE_BID (idToVec bid))) =
      (match bf p bid with
       | (Except.error e, p1) => (Except.error e, p1)
       | (Except.ok bid1, p1) =>
         (Except.ok (encodeAny (Value.Custom SCRYPTO_TYPE_BID (idToVec bid1))), p1)) := by
  cases hbf : bf p bid with
  | mk res p1 =>
    cases res with
    | error e =>
      have h2 := visit_bid_leaf bf rf p bid h
      simp only [hbf] at h2
      simp [process_data, parseAny_encodeAny _ (wf_bid_leaf bid), h2, hbf]
    | ok bid1 =>
      have h2 := visit_bid_leaf bf rf p bid h
      simp only [hbf] at h2
      simp [process_data, parseAny_encodeAny _ (wf_bid_leaf bid), h2, hbf]

theorem process_data_rid_leaf (bf rf : ClassFn) (p : Process) (rid : Nat)
    (h : rid < 4294967296) :
    process_data bf rf p (encodeAny (Value.Custom SCRYPTO_TYPE_RID (idToVec rid))) =
      (match rf p rid with
       | (Except.error e, p1) => (Except.error e, p1)
       | (Except.ok rid1, p1) =>
         (Except.ok (encodeAny (Value.Custom SCRYPTO_TYPE_RID (idToVec rid1))), p1)) := by
  cases hrf : rf p rid with
  | mk res p1 =>
    cases res with
    | error e =>
      have h2 := visit_rid_leaf bf rf p rid h
      simp only [hrf] at h2
      simp [process_data, parseAny_encodeAny _ (wf_rid_leaf rid), h2, hrf]
    | ok rid1 =>
      have h2 := visit_rid_leaf bf rf p rid h
      simp only [hrf] at h2
      simp [process_data, parseAny_encodeAny _ (wf_rid_leaf rid), h2, hrf]

/-- C7: the move classification claims each owned bucket (resp. reference)
id found at a tagged custom leaf out of the owned set into the moving set,
and fails with `BucketNotFound` (resp. `ReferenceNotFound`) when the id is
not currently owned — both for the per-leaf classification functions
`move_buckets`/`move_references` and for a walked payload carrying the
tagged leaf. -/
theorem move_classification_spec :
    (∀ (p : Process) (bid : Nat) (b : Bucket), alookup p.buckets bid = some b →
      move_buckets p bid = (Except.ok bid,
        { p with buckets := aerase p.buckets bid,
                 moving_buckets := ainsert p.moving_buckets bid b })) ∧
    (∀ (p : Process) (bid : Nat), alookup p.buckets bid = none →
      move_buckets p bid = (Except.error (RuntimeError.BucketNotFound bid), p)) ∧
    (∀ (p : Process) (rid : Nat) (lb : LockedBucket), alookup p.references rid = some lb →
      move_references p rid = (Except.ok rid,
        { p with references := aerase p.references rid,
                 moving_references := ainsert p.moving_references rid lb })) ∧
    (∀ (p : Process) (rid : Nat), alookup p.references rid = none →
      move_references p rid = (Except.error (RuntimeError.ReferenceNotFound rid), p)) ∧
    (∀ (p : Process) (bid : Nat) (b : Bucket), bid < 4294967296 →
      alookup p.buckets bid = some b →
      process_data move_buckets move_references p
          (encodeAny (Value.Custom SCRYPTO_TYPE_BID (idToVec bid))) =
        (Except.ok (encodeAny (Value.Custom SCRYPTO_TYPE_BID (idToVec bid))),
          { p with buckets := aerase p.buckets bid,
                   moving_buckets := ainsert p.moving_buckets bid b })) ∧
    (∀ (p : Process) (bid : Nat), bid < 4294967296 →
      alookup p.buckets bid = none →
      process_data move_buckets move_references p
          (encodeAny (Value.Custom SCRYPTO_TYPE_BID (idToVec bid))) =
        (Except.error (RuntimeError.BucketNotFound bid), p)) ∧
    (∀ (p : Process) (rid : Nat) (lb : LockedBucket), rid < 4294967296 →
      alookup p.references rid = some lb →
      process_data move_buckets move_references p
          (encodeAny (Value.Custom SCRYPTO_TYPE_RID (idToVec rid))) =
        (Except.ok (encodeAny (Value.Custom SCRYPTO_TYPE_RID (idToVec rid))),
          { p with references := aerase p.references rid,
                   moving_references := ainsert p.moving_references rid lb })) ∧
    (∀ (p : Process) (rid : Nat), rid < 4294967296 →
      alookup p.references rid = none →
      process_data move_buckets move_references p
          (encodeAny (Value.Custom SCRYPTO_TYPE_RID (idToVec rid))) =
        (Except.error (RuntimeError.ReferenceNotFound rid), p)) := by
  refine ⟨?_, ?_, ?_, ?_, ?_, ?_, ?_, ?_⟩
  · intro p bid b h
    simp [move_buckets, h]
  · intro p bid h
    simp [move_buckets, h]
  · intro p rid lb h
    simp [move_references, h]
  · intro p rid h
    simp [move_references, h]
  · intro p bid b hlt h
    rw [process_data_bid_leaf move_buckets move_references p bid hlt]
    simp [move_buckets, h]
  · intro p bid hlt h
    rw [process_data_bid_leaf move_buckets move_references p bid hlt]
    simp [move_buckets, h]
  · intro p rid lb hlt h
    rw [process_data_rid_leaf move_buckets move_references p rid hlt]
    simp [move_references, h]
  · intro p rid hlt h
    rw [process_data_rid_leaf move_buckets move_references p rid hlt]
    simp [move_references, h]

/-- Witness for `move_classification_spec` at concrete frames. -/
theorem move_classification_spec_witness :
    (move_buckets ⟨[(1, ⟨7, Address.resourceAddress 5⟩)], [], [], [], [], none⟩ 1 =
      (Except.ok 1, ⟨[], [], [], [(1, ⟨7, Address.resourceAddress 5⟩)], [], none⟩)) ∧
    (move_buckets ⟨[], [], [], [], [], none⟩ 2 =
      (Except.error (RuntimeError.BucketNotFound 2), ⟨[], [], [], [], [], none⟩)) := by
  constructor
  · have h := move_classification_spec.1
      ⟨[(1, ⟨7, Address.resourceAddress 5⟩)], [], [], [], [], none⟩ 1
      ⟨7, Address.resourceAddress 5⟩ rfl
    rw [h]
    rfl
  · exact move_classification_spec.2.1 ⟨[], [], [], [], [], none⟩ 2 rfl

theorem visit_vec_keep_aux (p : Process) (vs : List Value)
    (h : ∀ v ∈ vs, ∀ q : Process,
      visit keep_buckets keep_references q v = (Except.ok v, q)) :
    visit_vec keep_buckets keep_references p vs = (Except.ok vs, p) := by
  induction vs generalizing p with
  | nil => rw [visit_vec]
  | cons v rest ih =>
    have h1 := h v (List.mem_cons_self v rest) p
    have h2 := ih p (fun x hx q => h x (List.mem_cons_of_mem v hx) q)
    rw [visit_vec]
    simp [h1, h2]

theorem visit_map_keep_aux (p : Process) (kvs : List (Value × Value))
    (h : ∀ x ∈ kvs, ∀ q : Process,
      visit keep_buckets keep_references q x.1 = (Except.ok x.1, q) ∧
      visit keep_buckets keep_references q x.2 = (Except.ok x.2, q)) :
    visit_map keep_buckets keep_references p kvs = (Except.ok kvs, p) := by
  induction kvs generalizing p with
  | nil => rw [visit_map]
  | cons x rest ih =>
    obtain ⟨k, v⟩ := x
    have hk : ∀ q : Process, visit keep_buckets keep_references q k = (Except.ok k, q) :=
      fun q => (h (k, v) (List.mem_cons_self (k, v) rest) q).1
    have hv : ∀ q : Process, visit keep_buckets keep_references q v = (Except.ok v, q) :=
      fun q => (h (k, v) (List.mem_cons_self (k, v) rest) q).2
    have h2 := ih p (fun y hy q => h y (List.mem_cons_of_mem (k, v) hy) q)
    rw [visit_map]
    simp [hk, hv, h2]

theorem visit_fields_keep_aux (p : Process) (fs : Fields)
    (h : ∀ v, (match fs with
      | Fields.Named vs => v ∈ vs
      | Fields.Unnamed vs => v ∈ vs
      | Fields.Unit => False) → ∀ q : Process,
      visit keep_buckets keep_references q v = (Except.ok v, q)) :
    visit_fields keep_buckets keep_references p fs = (Except.ok fs, p) := by
  cases fs with
  | Named vs =>
    rw [visit_fields]
    rw [visit_vec_keep_aux p vs (fun v hv q => h v hv q)]
  | Unnamed vs =>
    rw [visit_fields]
    rw [visit_vec_keep_aux p vs (fun v hv q => h v hv q)]
  | Unit => rw [visit_fields]

/-- Walking a well-formed value with the identity classification leaves the
value and the frame unchanged: only bucket/reference custom leaves are
re-encoded, and their valid fixed-width payloads re-encode to themselves. -/
theorem visit_keep_id : ∀ (d : Nat) (v : Value), depthValue v ≤ d → wfValue v = true →
    ∀ p : Process, visit keep_buckets keep_references p v = (Except.ok v, p) := by
  intro d
  induction d with
  | zero =>
    intro v hd _ _
    exact absurd hd (by have := depthValue_pos v; omega)
  | succ d ih =>
    intro v hd hwf p
    cases v with
    | Unit => rw [visit]
    | Bool b => rw [visit]
    | I8 i => rw [visit]
    | I16 i => rw [visit]
    | I32 i => rw [visit]
    | I64 i => rw [visit]
    | I128 i => rw [visit]
    | U8 n => rw [visit]
    | U16 n => rw [visit]
    | U32 n => rw [visit]
    | U64 n => rw [visit]
    | U128 n => rw [visit]
    | String str => rw [visit]
    | Option o =>
      cases o with
      | none => rw [visit]
      | some v =>
        simp only [wfValue] at hwf
        simp only [depthValue] at hd
        rw [visit, ih v (by omega) hwf p]
    | Box v =>
      simp only [wfValue] at hwf
      simp only [depthValue] at hd
      rw [visit, ih v (by omega) hwf p]
    | Array ty vs =>
      simp only [wfValue, Bool.and_eq_true, decide_eq_true_eq] at hwf
      simp only [depthValue] at hd
      rw [visit, visit_vec_keep_aux p vs (fun v hv q => ih v
        (Nat.le_trans (depthVec_mem_le vs v hv) (by omega)) (wfVec_mem vs v hwf.2 hv) q)]
    | Tuple vs =>
      simp only [wfValue, Bool.and_eq_true, decide_eq_true_eq] at hwf
      simp only [depthValue] at hd
      rw [visit, visit_vec_keep_aux p vs (fun v hv q => ih v
        (Nat.le_trans (depthVec_mem_le vs v hv) (by omega)) (wfVec_mem vs v hwf.2 hv) q)]
    | Struct fs =>
      simp only [wfValue] at hwf
      simp only [depthValue] at hd
      rw [visit, visit_fields_keep_aux p fs ?helem]
      case helem =>
        cases fs with
        | Named vs =>
          simp only [wfFields, Bool.and_eq_true, decide_eq_true_eq] at hwf
          simp only [depthFields] at hd
          exact fun v hv q => ih v (Nat.le_trans (depthVec_mem_le vs v hv) (by omega))
            (wfVec_mem vs v hwf.2 hv) q
        | Unnamed vs =>
          simp only [wfFields, Bool.and_eq_true, decide_eq_true_eq] at hwf
          simp only [depthFields] at hd
          exact fun v hv q => ih v (Nat.le_trans (depthVec_mem_le vs v hv) (by omega))
            (wfVec_mem vs v hwf.2 hv) q
        | Unit => exact fun v hv => absurd hv (by simp)
    | Enum idx fs =>
      simp only [wfValue, Bool.and_eq_true, decide_eq_true_eq] at hwf
      simp only [depthValue] at hd
      rw [visit, visit_fields_keep_aux p fs ?helem2]
      case helem2 =>
        cases fs with
        | Named vs =>
          have hfs := hwf.2
          simp only [wfFields, Bool.and_eq_true, decide_eq_true_eq] at hfs
          simp only [depthFields] at hd
          exact fun v hv q => ih v (Nat.le_trans (depthVec_mem_le vs v hv) (by omega))
            (wfVec_mem vs v hfs.2 hv) q
        | Unnamed vs =>
          have hfs := hwf.2
          simp only [wfFields, Bool.and_eq_true, decide_eq_true_eq] at hfs
          simp only [depthFields] at hd
          exact fun v hv q => ih v (Nat.le_trans (depthVec_mem_le vs v hv) (by omega))
            (wfVec_mem vs v hfs.2 hv) q
        | Unit => exact fun v hv => absurd hv (by simp)
    | Vec ty vs =>
      simp only [wfValue, Bool.and_eq_true, decide_eq_true_eq] at hwf
      simp only [depthValue] at hd
      rw [visit, visit_vec_keep_aux p vs (fun v hv q => ih v
        (Nat.le_trans (depthVec_mem_le vs v hv) (by omega)) (wfVec_mem vs v hwf.2 hv) q)]
    | TreeSet ty vs =>
      simp only [wfValue, Bool.and_eq_true, decide_eq_true_eq] at hwf
      simp only [depthValue] at hd
      rw [visit, visit_vec_keep_aux p vs (fun v hv q => ih v
        (Nat.le_trans (depthVec_mem_le vs v hv) (by omega)) (wfVec_mem vs v hwf.2 hv) q)]
    | HashSet ty vs =>
      simp only [wfValue, Bool.and_eq_true, decide_eq_true_eq] at hwf
      simp only [depthValue] at hd
      rw [visit, visit_vec_keep_aux p vs (fun v hv q => ih v
        (Nat.le_trans (depthVec_mem_le vs v hv) (by omega)) (wfVec_mem vs v hwf.2 hv) q)]
    | TreeMap tyk tyv kvs =>
      simp only [wfValue, Bool.and_eq_true, decide_eq_true_eq] at hwf
      simp only [depthValue] at hd
      rw [visit, visit_map_keep_aux p kvs (fun x hx q =>
        ⟨ih x.1 (Nat.le_trans (depthMap_mem_le kvs x hx).1 (by omega))
            (wfMap_mem kvs x hwf.2 hx).1 q,
          ih x.2 (Nat.le_trans (depthMap_mem_le kvs x hx).2 (by omega))
            (wfMap_mem kvs x hwf.2 hx).2 q⟩)]
    | HashMap tyk tyv kvs =>
      simp only [wfValue, Bool.and_eq_true, decide_eq_true_eq] at hwf
      simp only [depthValue] at hd
      rw [visit, visit_map_keep_aux p kvs (fun x hx q =>
        ⟨ih x.1 (Nat.le_trans (depthMap_mem_le kvs x hx).1 (by omega))
            (wfMap_mem kvs x hwf.2 hx).1 q,
          ih x.2 (Nat.le_trans (depthMap_mem_le kvs x hx).2 (by omega))
            (wfMap_mem kvs x hwf.2 hx).2 q⟩)]
    | Custom ty data =>
      simp only [wfValue, Bool.and_eq_true, decide_eq_true_eq, List.all_eq_true] at hwf
      obtain ⟨⟨⟨⟨h128, h256⟩, hlen⟩, hbytes⟩, hhandle⟩ := hwf
      rw [visit, visit_custom]
      by_cases hbid : ty = SCRYPTO_TYPE_BID
      · subst hbid
        have hfour : data.length = 4 := by
          simpa using hhandle
        have hid : idTryFrom data = some (leToNat data) := by
          rw [idTryFrom, if_pos ⟨hfour, fun b hb => by simpa using hbytes b hb⟩]
        rw [if_pos rfl, hid]
        have hvec : idToVec (leToNat data) = data :=
          idToVec_idTryFrom data (leToNat data) hid
        simp [keep_buckets, hvec]
      · by_cases hrid : ty = SCRYPTO_TYPE_RID
        · subst hrid
          have hfour : data.length = 4 := by
            simpa using hhandle
          have hid : idTryFrom data = some (leToNat data) := by
            rw [idTryFrom, if_pos ⟨hfour, fun b hb => by simpa using hbytes b hb⟩]
          rw [if_neg (by simp [SCRYPTO_TYPE_BID, SCRYPTO_TYPE_RID]), if_pos rfl, hid]
          have hvec : idToVec (leToNat data) = data :=
            idToVec_idTryFrom data (leToNat data) hid
          simp [keep_references, hvec]
        · rw [if_neg hbid, if_neg hrid]

/-- C8: walking a well-formed payload with the identity classification
re-encodes to a byte sequence SBOR-equivalent to the input — here the very
same bytes — and the parsed value is returned unchanged: the walker
preserves the shape, rewrites only bucket/reference custom leaves (by their
canonical fixed-width image) and passes every other custom leaf through. -/
theorem walker_identity_roundtrip (v : Value) (p : Process) (h : wfValue v = true) :
    process_data keep_buckets keep_references p (encodeAny v) =
      (Except.ok (encodeAny v), p) ∧
    parseAny (encodeAny v) = Except.ok v := by
  refine ⟨?_, parseAny_encodeAny v h⟩
  have h1 := parseAny_encodeAny v h
  have h2 := visit_keep_id (depthValue v) v (Nat.le_refl _) h p
  simp [process_data, h1, h2]

/-- Witness for `walker_identity_roundtrip`: a tuple holding a number, a
bucket leaf and an opaque custom leaf round-trips unchanged. -/
theorem walker_identity_roundtrip_witness :
    process_data keep_buckets keep_references ⟨[], [], [], [], [], none⟩
        (encodeAny (Value.Tuple [Value.U32 7, Value.Custom 131 (idToVec 3),
          Value.Custom 144 [9]])) =
      (Except.ok (encodeAny (Value.Tuple [Value.U32 7, Value.Custom 131 (idToVec 3),
          Value.Custom 144 [9]])), ⟨[], [], [], [], [], none⟩) :=
  (walker_identity_roundtrip (Value.Tuple [Value.U32 7, Value.Custom 131 (idToVec 3),
      Value.Custom 144 [9]]) ⟨[], [], [], [], [], none⟩
    (by simp [wfValue, wfVec, SCRYPTO_TYPE_BID, SCRYPTO_TYPE_RID, idToVec, natToLe])).1

mutual

/-- Whether a value contains a custom leaf tagged as a bucket or reference
id anywhere. -/
def hasHandle : Value → Bool
  | Value.Option o =>
    match o with
    | some v => hasHandle v
    | none => false
  | Value.Box v => hasHandle v
  | Value.Array _ vs => hasHandleVec vs
  | Value.Tuple vs => hasHandleVec vs
  | Value.Struct fs => hasHandleFields fs
  | Value.Enum _ fs => hasHandleFields fs
  | Value.Vec _ vs => hasHandleVec vs
  | Value.TreeSet _ vs => hasHandleVec vs
  | Value.HashSet _ vs => hasHandleVec vs
  | Value.TreeMap _ _ kvs => hasHandleMap kvs
  | Value.HashMap _ _ kvs => hasHandleMap kvs
  | Value.Custom ty _ => decide (ty = SCRYPTO_TYPE_BID) || decide (ty = SCRYPTO_TYPE_RID)
  | _ => false

/-- `hasHandle` over a list of values. -/
def hasHandleVec : List Value → Bool
  | [] => false
  | v :: rest => hasHandle v || hasHandleVec rest

/-- `hasHandle` over key/value pairs. -/
def hasHandleMap : List (Value × Value) → Bool
  | [] => false
  | (k, v) :: rest => hasHandle k || hasHandle v || hasHandleMap rest

/-- `hasHandle` over fields. -/
def hasHandleFields : Fields → Bool
  | Fields.Named vs => hasHandleVec vs
  | Fields.Unnamed vs => hasHandleVec vs
  | Fields.Unit => false

end

/-- The two movement errors raised by the reject classification. -/
def movementError (e : RuntimeError) : Prop :=
  e = RuntimeError.BucketMoveNotAllowed ∨ e = RuntimeError.ReferenceMoveNotAllowed

/-- The statement of the reject-walk lemma for a single value. -/
def RejectSpec (v : Value) : Prop :=
  ∀ p : Process,
    (hasHandle v = false →
      visit reject_buckets reject_references p v = (Except.ok v, p)) ∧
    (hasHandle v = true → ∃ e, movementError e ∧
      visit reject_buckets reject_references p v = (Except.error e, p))

theorem visit_vec_reject_aux (vs : List Value) (h : ∀ v ∈ vs, RejectSpec v) :
    ∀ p : Process,
    (hasHandleVec vs = false →
      visit_vec reject_buckets reject_references p vs = (Except.ok vs, p)) ∧
    (hasHandleVec vs = true → ∃ e, movementError e ∧
      visit_vec reject_buckets reject_references p vs = (Except.error e, p)) := by
  induction vs with
  | nil =>
    intro p
    exact ⟨fun _ => by rw [visit_vec], fun hc => by cases hc⟩
  | cons v rest ih =>
    intro p
    have hv := h v (List.mem_cons_self v rest)
    have htail := ih (fun x hx => h x (List.mem_cons_of_mem v hx))
    constructor
    · intro hnone
      rw [hasHandleVec, Bool.or_eq_false_iff] at hnone
      have h1 := (hv p).1 hnone.1
      have h2 := (htail p).1 hnone.2
      rw [visit_vec]
      simp [h1, h2]
    · intro hsome
      rw [hasHandleVec, Bool.or_eq_true] at hsome
      by_cases hhv : hasHandle v = true
      · obtain ⟨e, he, heq⟩ := (hv p).2 hhv
        refine ⟨e, he, ?_⟩
        rw [visit_vec]
        simp [heq]
      · have hvf : hasHandle v = false := by
          simpa using hhv
        have h1 := (hv p).1 hvf
        have hrest : hasHandleVec rest = true := by
          rcases hsome with hcl | hcr
          · exact absurd hcl hhv
          · exact hcr
        obtain ⟨e, he, heq⟩ := (htail p).2 hrest
        refine ⟨e, he, ?_⟩
        rw [visit_vec]
        simp [h1, heq]

theorem visit_map_reject_aux (kvs : List (Value × Value))
    (h : ∀ x ∈ kvs, RejectSpec x.1 ∧ RejectSpec x.2) :
    ∀ p : Process,
    (hasHandleMap kvs = false →
      visit_map reject_buckets reject_references p kvs = (Except.ok kvs, p)) ∧
    (hasHandleMap kvs = true → ∃ e, movementError e ∧
      visit_map reject_buckets reject_references p kvs = (Except.error e, p)) := by
  induction kvs with
  | nil =>
    intro p
    exact ⟨fun _ => by rw [visit_map], fun hc => by cases hc⟩
  | cons x rest ih =>
    obtain ⟨k, v⟩ := x
    intro p
    have hk : RejectSpec k := (h (k, v) (List.mem_cons_self (k, v) rest)).1
    have hv : RejectSpec v := (h (k, v) (List.mem_cons_self (k, v) rest)).2
    have htail := ih (fun y hy => h y (List.mem_cons_of_mem (k, v) hy))
    constructor
    · intro hnone
      rw [hasHandleMap, Bool.or_eq_false_iff, Bool.or_eq_false_iff] at hnone
      have h1 := (hk p).1 hnone.1.1
      have h2 := (hv p).1 hnone.1.2
      have h3 := (htail p).1 hnone.2
      rw [visit_map]
      simp [h1, h2, h3]
    · intro hsome
      by_cases hhk : hasHandle k = true
      · obtain ⟨e, he, heq⟩ := (hk p).2 hhk
        refine ⟨e, he, ?_⟩
        rw [visit_map]
        simp [heq]
      · have hkf : hasHandle k = false := by simpa using hhk
        have h1 := (hk p).1 hkf
        by_cases hhv : hasHandle v = true
        · obtain ⟨e, he, heq⟩ := (hv p).2 hhv
          refine ⟨e, he, ?_⟩
          rw [visit_map]
          simp [h1, heq]
        · have hvf : hasHandle v = false := by simpa using hhv
          have h2 := (hv p).1 hvf
          have hrest : hasHandleMap rest = true := by
            rw [hasHandleMap, Bool.or_eq_true, Bool.or_eq_true] at hsome
            rcases hsome with (hcl | hcm) | hcr
            · exact absurd hcl hhk
            · exact absurd hcm hhv
            · exact hcr
          obtain ⟨e, he, heq⟩ := (htail p).2 hrest
          refine ⟨e, he, ?_⟩
          rw [visit_map]
          simp [h1, h2, heq]

theorem visit_fields_reject_aux (fs : Fields)
    (h : ∀ v, (match fs with
      | Fields.Named vs => v ∈ vs
      | Fields.Unnamed vs => v ∈ vs
      | Fields.Unit => False) → RejectSpec v) :
    ∀ p : Process,
    (hasHandleFields fs = false →
      visit_fields reject_buckets reject_references p fs = (Except.ok fs, p)) ∧
    (hasHandleFields fs = true → ∃ e, movementError e ∧
      visit_fields reject_buckets reject_references p fs = (Except.error e, p)) := by
  cases fs with
  | Named vs =>
    intro p
    have hvec := visit_vec_reject_aux vs (fun v hv => h v hv) p
    constructor
    · intro hnone
      rw [hasHandleFields] at hnone
      rw [visit_fields]
      simp [hvec.1 hnone]
    · intro hsome
      rw [hasHandleFields] at hsome
      obtain ⟨e, he, heq⟩ := hvec.2 hsome
      refine ⟨e, he, ?_⟩
      rw [visit_fields]
      simp [heq]
  | Unnamed vs =>
    intro p
    have hvec := visit_vec_reject_aux vs (fun v hv => h v hv) p
    constructor
    · intro hnone
      rw [hasHandleFields] at hnone
      rw [visit_fields]
      simp [hvec.1 hnone]
    · intro hsome
      rw [hasHandleFields] at hsome
      obtain ⟨e, he, heq⟩ := hvec.2 hsome
      refine ⟨e, he, ?_⟩
      rw [visit_fields]
      simp [heq]
  | Unit =>
    intro p
    exact ⟨fun _ => by rw [visit_fields], fun hc => by cases hc⟩

/-- Walking a well-formed value with the reject classification: if no
bucket/reference leaf occurs the value passes unchanged; if one occurs the
walk fails with a movement error, and the frame is untouched either way. -/
theorem visit_reject_spec : ∀ (d : Nat) (v : Value), depthValue v ≤ d →
    wfValue v = true → RejectSpec v := by
  intro d
  induction d with
  | zero =>
    intro v hd _
    exact absurd hd (by have := depthValue_pos v; omega)
  | succ d ih =>
    intro v hd hwf
    cases v with
    | Unit => exact fun p => ⟨fun _ => by rw [visit], fun hc => by cases hc⟩
    | Bool b => exact fun p => ⟨fun _ => by rw [visit], fun hc => by cases hc⟩
    | I8 i => exact fun p => ⟨fun _ => by rw [visit], fun hc => by cases hc⟩
    | I16 i => exact fun p => ⟨fun _ => by rw [visit], fun hc => by cases hc⟩
    | I32 i => exact fun p => ⟨fun _ => by rw [visit], fun hc => by cases hc⟩
    | I64 i => exact fun p => ⟨fun _ => by rw [visit], fun hc => by cases hc⟩
    | I128 i => exact fun p => ⟨fun _ => by rw [visit], fun hc => by cases hc⟩
    | U8 n => exact fun p => ⟨fun _ => by rw [visit], fun hc => by cases hc⟩
    | U16 n => exact fun p => ⟨fun _ => by rw [visit], fun hc => by cases hc⟩
    | U32 n => exact fun p => ⟨fun _ => by rw [visit], fun hc => by cases hc⟩
    | U64 n => exact fun p => ⟨fun _ => by rw [visit], fun hc => by cases hc⟩
    | U128 n => exact fun p => ⟨fun _ => by rw [visit], fun hc => by cases hc⟩
    | String str => exact fun p => ⟨fun _ => by rw [visit], fun hc => by cases hc⟩
    | Option o =>
      cases o with
      | none => exact fun p => ⟨fun _ => by rw [visit], fun hc => by cases hc⟩
      | some v =>
        simp only [wfValue] at hwf
        simp only [depthValue] at hd
        have hv := ih v (by omega) hwf
        intro p
        constructor
        · intro hnone
          rw [hasHandle] at hnone
          have h1 := (hv p).1 hnone
          rw [visit]
          simp [h1]
        · intro hsome
          rw [hasHandle] at hsome
          obtain ⟨e, he, heq⟩ := (hv p).2 hsome
          refine ⟨e, he, ?_⟩
          rw [visit]
          simp [heq]
    | Box v =>
      simp only [wfValue] at hwf
      simp only [depthValue] at hd
      have hv := ih v (by omega) hwf
      intro p
      constructor
      · intro hnone
        rw [hasHandle] at hnone
        have h1 := (hv p).1 hnone
        rw [visit]
        simp [h1]
      · intro hsome
        rw [hasHandle] at hsome
        obtain ⟨e, he, heq⟩ := (hv p).2 hsome
        refine ⟨e, he, ?_⟩
        rw [visit]
        simp [heq]
    | Array ty vs =>
      simp only [wfValue, Bool.and_eq_true, decide_eq_true_eq] at hwf
      simp only [depthValue] at hd
      have hvec := visit_vec_reject_aux vs (fun v hv => ih v
        (Nat.le_trans (depthVec_mem_le vs v hv) (by omega)) (wfVec_mem vs v hwf.2 hv))
      intro p
      constructor
      · intro hnone
        rw [hasHandle] at hnone
        rw [visit]
        simp [(hvec p).1 hnone]
      · intro hsome
        rw [hasHandle] at hsome
        obtain ⟨e, he, heq⟩ := (hvec p).2 hsome
        refine ⟨e, he, ?_⟩
        rw [visit]
        simp [heq]
    | Tuple vs =>
      simp only [wfValue, Bool.and_eq_true, decide_eq_true_eq] at hwf
      simp only [depthValue] at hd
      have hvec := visit_vec_reject_aux vs (fun v hv => ih v
        (Nat.le_trans (depthVec_mem_le vs v hv) (by omega)) (wfVec_mem vs v hwf.2 hv))
      intro p
      constructor
      · intro hnone
        rw [hasHandle] at hnone
        rw [visit]
        simp [(hvec p).1 hnone]
      · intro hsome
        rw [hasHandle] at hsome
        obtain ⟨e, he, heq⟩ := (hvec p).2 hsome
        refine ⟨e, he, ?_⟩
        rw [visit]
        simp [heq]
    | Vec ty vs =>
      simp only [wfValue, Bool.and_eq_true, decide_eq_true_eq] at hwf
      simp only [depthValue] at hd
      have hvec := visit_vec_reject_aux vs (fun v hv => ih v
        (Nat.le_trans (depthVec_mem_le vs v hv) (by omega)) (wfVec_mem vs v hwf.2 hv))
      intro p
      constructor
      · intro hnone
        rw [hasHandle] at hnone
        rw [visit]
        simp [(hvec p).1 hnone]
      · intro hsome
        rw [hasHandle] at hsome
        obtain ⟨e, he, heq⟩ := (hvec p).2 hsome
        refine ⟨e, he, ?_⟩
        rw [visit]
        simp [heq]
    | TreeSet ty vs =>
      simp only [wfValue, Bool.and_eq_true, decide_eq_true_eq] at hwf
      simp only [depthValue] at hd
      have hvec := visit_vec_reject_aux vs (fun v hv => ih v
        (Nat.le_trans (depthVec_mem_le vs v hv) (by omega)) (wfVec_mem vs v hwf.2 hv))
      intro p
      constructor
      · intro hnone
        rw [hasHandle] at hnone
        rw [visit]
        simp [(hvec p).1 hnone]
      · intro hsome
        rw [hasHandle] at hsome
        obtain ⟨e, he, heq⟩ := (hvec p).2 hsome
        refine ⟨e, he, ?_⟩
        rw [visit]
        simp [heq]
    | HashSet ty vs =>
      simp only [wfValue, Bool.and_eq_true, decide_eq_true_eq] at hwf
      simp only [depthValue] at hd
      have hvec := visit_vec_reject_aux vs (fun v hv => ih v
        (Nat.le_trans (depthVec_mem_le vs v hv) (by omega)) (wfVec_mem vs v hwf.2 hv))
      intro p
      constructor
      · intro hnone
        rw [hasHandle] at hnone
        rw [visit]
        simp [(hvec p).1 hnone]
      · intro hsome
        rw [hasHandle] at hsome
        obtain ⟨e, he, heq⟩ := (hvec p).2 hsome
        refine ⟨e, he, ?_⟩
        rw [visit]
        simp [heq]
    | Struct fs =>
      simp only [wfValue] at hwf
      simp only [depthValue] at hd
      have hflds := visit_fields_reject_aux fs ?helem
      case helem =>
        cases fs with
        | Named vs =>
          simp only [wfFields, Bool.and_eq_true, decide_eq_true_eq] at hwf
          simp only [depthFields] at hd
          exact fun v hv => ih v (Nat.le_trans (depthVec_mem_le vs v hv) (by omega))
            (wfVec_mem vs v hwf.2 hv)
        | Unnamed vs =>
          simp only [wfFields, Bool.and_eq_true, decide_eq_true_eq] at hwf
          simp only [depthFields] at hd
          exact fun v hv => ih v (Nat.le_trans (depthVec_mem_le vs v hv) (by omega))
            (wfVec_mem vs v hwf.2 hv)
        | Unit => exact fun v hv => absurd hv (by simp)
      intro p
      constructor
      · intro hnone
        rw [hasHandle] at hnone
        rw [visit]
        simp [(hflds p).1 hnone]
      · intro hsome
        rw [hasHandle] at hsome
        obtain ⟨e, he, heq⟩ := (hflds p).2 hsome
        refine ⟨e, he, ?_⟩
        rw [visit]
        simp [heq]
    | Enum idx fs =>
      simp only [wfValue, Bool.and_eq_true, decide_eq_true_eq] at hwf
      simp only [depthValue] at hd
      have hflds := visit_fields_reject_aux fs ?helem2
      case helem2 =>
        cases fs with
        | Named vs =>
          have hfs := hwf.2
          simp only [wfFields, Bool.and_eq_true, decide_eq_true_eq] at hfs
          simp only [depthFields] at hd
          exact fun v hv => ih v (Nat.le_trans (depthVec_mem_le vs v hv) (by omega))
            (wfVec_mem vs v hfs.2 hv)
        | Unnamed vs =>
          have hfs := hwf.2
          simp only [wfFields, Bool.and_eq_true, decide_eq_true_eq] at hfs
          simp only [depthFields] at hd
          exact fun v hv => ih v (Nat.le_trans (depthVec_mem_le vs v hv) (by omega))
            (wfVec_mem vs v hfs.2 hv)
        | Unit => exact fun v hv => absurd hv (by simp)
      intro p
      constructor
      · intro hnone
        rw [hasHandle] at hnone
        rw [visit]
        simp [(hflds p).1 hnone]
      · intro hsome
        rw [hasHandle] at hsome
        obtain ⟨e, he, heq⟩ := (hflds p).2 hsome
        refine ⟨e, he, ?_⟩
        rw [visit]
        simp [heq]
    | TreeMap tyk tyv kvs =>
      simp only [wfValue, Bool.and_eq_true, decide_eq_true_eq] at hwf
      simp only [depthValue] at hd
      have hmp := visit_map_reject_aux kvs (fun x hx =>
        ⟨ih x.1 (Nat.le_trans (depthMap_mem_le kvs x hx).1 (by omega))
            (wfMap_mem kvs x hwf.2 hx).1,
          ih x.2 (Nat.le_trans (depthMap_mem_le kvs x hx).2 (by omega))
            (wfMap_mem kvs x hwf.2 hx).2⟩)
      intro p
      constructor
      · intro hnone
        rw [hasHandle] at hnone
        rw [visit]
        simp [(hmp p).1 hnone]
      · intro hsome
        rw [hasHandle] at hsome
        obtain ⟨e, he, heq⟩ := (hmp p).2 hsome
        refine ⟨e, he, ?_⟩
        rw [visit]
        simp [heq]
    | HashMap tyk tyv kvs =>
      simp only [wfValue, Bool.and_eq_true, decide_eq_true_eq] at hwf
      simp only [depthValue] at hd
      have hmp := visit_map_reject_aux kvs (fun x hx =>
        ⟨ih x.1 (Nat.le_trans (depthMap_mem_le kvs x hx).1 (by omega))
            (wfMap_mem kvs x hwf.2 hx).1,
          ih x.2 (Nat.le_trans (depthMap_mem_le kvs x hx).2 (by omega))
            (wfMap_mem kvs x hwf.2 hx).2⟩)
      intro p
      constructor
      · intro hnone
        rw [hasHandle] at hnone
        rw [visit]
        simp [(hmp p).1 hnone]
      · intro hsome
        rw [hasHandle] at hsome
        obtain ⟨e, he, heq⟩ := (hmp p).2 hsome
        refine ⟨e, he, ?_⟩
        rw [visit]
        simp [heq]
    | Custom ty data =>
      simp only [wfValue, Bool.and_eq_true, decide_eq_true_eq, List.all_eq_true] at hwf
      obtain ⟨⟨⟨⟨h128, h256⟩, hlen⟩, hbytes⟩, hhandle⟩ := hwf
      intro p
      constructor
      · intro hnone
        rw [hasHandle] at hnone
        simp only [Bool.or_eq_false_iff, decide_eq_false_iff_not] at hnone
        rw [visit, visit_custom, if_neg hnone.1, if_neg hnone.2]
      · intro hsome
        rw [hasHandle] at hsome
        simp only [Bool.or_eq_true, decide_eq_true_eq] at hsome
        by_cases hbid : ty = SCRYPTO_TYPE_BID
        · subst hbid
          have hfour : data.length = 4 := by simpa using hhandle
          have hid : idTryFrom data = some (leToNat data) := by
            rw [idTryFrom, if_pos ⟨hfour, fun b hb => by simpa using hbytes b hb⟩]
          refine ⟨RuntimeError.BucketMoveNotAllowed, Or.inl rfl, ?_⟩
          rw [visit, visit_custom, if_pos rfl, hid]
          rfl
        · have hrid : ty = SCRYPTO_TYPE_RID := by
            rcases hsome with hcl | hcr
            · exact absurd hcl hbid
            · exact hcr
          subst hrid
          have hfour : data.length = 4 := by simpa using hhandle
          have hid : idTryFrom data = some (leToNat data) := by
            rw [idTryFrom, if_pos ⟨hfour, fun b hb => by simpa using hbytes b hb⟩]
          refine ⟨RuntimeError.ReferenceMoveNotAllowed, Or.inr rfl, ?_⟩
          rw [visit, visit_custom,
            if_neg (by simp [SCRYPTO_TYPE_BID, SCRYPTO_TYPE_RID]), if_pos rfl, hid]
          rfl

/-- C6: a `put_storage_entry` whose key or value payload contains a bucket-
or reference-tagged custom leaf fails with a movement error
(`BucketMoveNotAllowed`/`ReferenceMoveNotAllowed`), and both the runtime
(hence the targeted storage map) and the frame are left unchanged. -/
theorem put_storage_entry_rejects_handles (rt : Runtime) (p : Process) (pkg : Address)
    (sid : Nat) (kv vv : Value)
    (hvm : p.vmPackage = some pkg)
    (hwfk : wfValue kv = true) (hwfv : wfValue vv = true)
    (hhandle : hasHandle kv = true ∨ hasHandle vv = true) :
    ∃ e, movementError e ∧
      handle_put_storage_entry rt p sid (encodeAny kv) (encodeAny vv) =
        (Except.error e, rt, p) := by
  have hk := visit_reject_spec (depthValue kv) kv (Nat.le_refl _) hwfk
  have hv := visit_reject_spec (depthValue vv) vv (Nat.le_refl _) hwfv
  by_cases hck : hasHandle kv = true
  · obtain ⟨e, he, heq⟩ := (hk p).2 hck
    refine ⟨e, he, ?_⟩
    have hpd : process_data reject_buckets reject_references p (encodeAny kv) =
        (Except.error e, p) := by
      simp [process_data, parseAny_encodeAny kv hwfk, heq]
    simp [handle_put_storage_entry, Process.package, hvm, hpd]
  · have hckf : hasHandle kv = false := by simpa using hck
    have hvv : hasHandle vv = true := by
      rcases hhandle with h | h
      · exact absurd h hck
      · exact h
    have hkeq := (hk p).1 hckf
    obtain ⟨e, he, heq⟩ := (hv p).2 hvv
    refine ⟨e, he, ?_⟩
    have hpdk : process_data reject_buckets reject_references p (encodeAny kv) =
        (Except.ok (encodeAny kv), p) := by
      simp [process_data, parseAny_encodeAny kv hwfk, hkeq]
    have hpdv : process_data reject_buckets reject_references p (encodeAny vv) =
        (Except.error e, p) := by
      simp [process_data, parseAny_encodeAny vv hwfv, heq]
    simp [handle_put_storage_entry, Process.package, hvm, hpdk, hpdv]

/-- Witness for `put_storage_entry_rejects_handles`: a bucket leaf inside
the value payload. -/
theorem put_storage_entry_rejects_handles_witness :
    ∃ e, movementError e ∧
      handle_put_storage_entry ⟨0, 0, 0, 0, 0, 0, [], [], [], []⟩
          ⟨[], [], [], [], [], some (Address.package 3)⟩ 7
          (encodeAny (Value.U32 1)) (encodeAny (Value.Custom 131 (idToVec 2))) =
        (Except.error e, ⟨0, 0, 0, 0, 0, 0, [], [], [], []⟩,
          ⟨[], [], [], [], [], some (Address.package 3)⟩) :=
  put_storage_entry_rejects_handles _ _ (Address.package 3) 7 _ _ rfl
    (by simp [wfValue]) (wf_bid_leaf 2)
    (Or.inr (by simp [hasHandle, SCRYPTO_TYPE_BID]))

/-- C5 (amended): for an existing component, the three component operations
fail with `UnauthorizedAccess` exactly when the current package differs from
the component's blueprint package — for `put_component_state` provided its
state payload passes the reject walk first — and when the packages match the
authority check passes and the getters succeed. -/
theorem component_access_auth_iff (rt : Runtime) (p : Process) (pkg c : Address)
    (com : Component)
    (hvm : p.vmPackage = some pkg) (hcom : alookup rt.components c = some com) :
    ((handle_get_component_info rt p c).1 =
        Except.error RuntimeError.UnauthorizedAccess ↔ pkg ≠ com.blueprint.1) ∧
    ((handle_get_component_state rt p c).1 =
        Except.error RuntimeError.UnauthorizedAccess ↔ pkg ≠ com.blueprint.1) ∧
    (pkg = com.blueprint.1 →
      (handle_get_component_info rt p c).1 = Except.ok com.blueprint ∧
      (handle_get_component_state rt p c).1 = Except.ok com.state) ∧
    (∀ (state new_state : List Nat) (p1 : Process),
      process_data reject_buckets reject_references p state = (Except.ok new_state, p1) →
      ((handle_put_component_state rt p c state).1 =
          Except.error RuntimeError.UnauthorizedAccess ↔ pkg ≠ com.blueprint.1)) := by
  by_cases hauth : pkg = com.blueprint.1
  · refine ⟨?_, ?_, fun _ => ⟨?_, ?_⟩, ?_⟩
    · simp [handle_get_component_info, Process.package, hvm, hcom, hauth]
    · simp [handle_get_component_state, Process.package, hvm, hcom, hauth]
    · simp [handle_get_component_info, Process.package, hvm, hcom, hauth]
    · simp [handle_get_component_state, Process.package, hvm, hcom, hauth]
    · intro state new_state p1 hpd
      simp [handle_put_component_state, Process.package, hvm, hcom, hauth, hpd]
  · refine ⟨?_, ?_, fun hc => absurd hc hauth, ?_⟩
    · simp [handle_get_component_info, Process.package, hvm, hcom, hauth]
    · simp [handle_get_component_state, Process.package, hvm, hcom, hauth]
    · intro state new_state p1 hpd
      simp [handle_put_component_state, Process.package, hvm, hcom, hauth, hpd]

/-- Witness for `component_access_auth_iff`: package B reading package A's
component fails with `UnauthorizedAccess`; the owner reads its state. -/
theorem component_access_auth_iff_witness :
    ((handle_get_component_state
        ⟨0, 0, 0, 0, 0, 0, [(Address.component 1, ⟨(Address.package 0, "A"), [0]⟩)],
          [], [], []⟩
        ⟨[], [], [], [], [], some (Address.package 7)⟩ (Address.component 1)).1 =
      Except.error RuntimeError.UnauthorizedAccess) ∧
    ((handle_get_component_state
        ⟨0, 0, 0, 0, 0, 0, [(Address.component 1, ⟨(Address.package 0, "A"), [0]⟩)],
          [], [], []⟩
        ⟨[], [], [], [], [], some (Address.package 0)⟩ (Address.component 1)).1 =
      Except.ok [0]) := by
  constructor
  · exact ((component_access_auth_iff
      ⟨0, 0, 0, 0, 0, 0, [(Address.component 1, ⟨(Address.package 0, "A"), [0]⟩)],
        [], [], []⟩
      ⟨[], [], [], [], [], some (Address.package 7)⟩ (Address.package 7)
      (Address.component 1)
      ⟨(Address.package 0, "A"), [0]⟩ rfl rfl).2.1).mpr (by decide)
  · exact ((component_access_auth_iff
      ⟨0, 0, 0, 0, 0, 0, [(Address.component 1, ⟨(Address.package 0, "A"), [0]⟩)],
        [], [], []⟩
      ⟨[], [], [], [], [], some (Address.package 0)⟩ (Address.package 0)
      (Address.component 1)
      ⟨(Address.package 0, "A"), [0]⟩ rfl rfl).2.2.1 rfl).2

/-- C5 counterexample: with a state payload embedding a bucket leaf and a
non-owning current package, `put_component_state` fails with
`BucketMoveNotAllowed`, not `UnauthorizedAccess` — the reject walk runs
before the authority check, so the claim's "fails with UnauthorizedAccess
exactly when the package differs" is false as stated. -/
theorem put_component_state_reject_preempts_auth :
    ((handle_put_component_state
        ⟨0, 0, 0, 0, 0, 0, [(Address.component 1, ⟨(Address.package 0, "A"), []⟩)],
          [], [], []⟩
        ⟨[], [], [], [], [], some (Address.package 7)⟩ (Address.component 1)
        [131, 4, 0, 0, 0, 1, 0, 0, 0]).1 =
      Except.error RuntimeError.BucketMoveNotAllowed) ∧
    Address.package 7 ≠ Address.package 0 ∧
    ((handle_put_component_state
        ⟨0, 0, 0, 0, 0, 0, [(Address.component 1, ⟨(Address.package 0, "A"), []⟩)],
          [], [], []⟩
        ⟨[], [], [], [], [], some (Address.package 7)⟩ (Address.component 1)
        [131, 4, 0, 0, 0, 1, 0, 0, 0]).1 ≠
      Except.error RuntimeError.UnauthorizedAccess) := by
  have hp : parseAny [131, 4, 0, 0, 0, 1, 0, 0, 0] =
      Except.ok (Value.Custom 131 [1, 0, 0, 0]) := rfl
  have hvv : visit reject_buckets reject_references
      ⟨[], [], [], [], [], some (Address.package 7)⟩ (Value.Custom 131 [1, 0, 0, 0]) =
      (Except.error RuntimeError.BucketMoveNotAllowed,
        ⟨[], [], [], [], [], some (Address.package 7)⟩) := by
    simp [visit, visit_custom, SCRYPTO_TYPE_BID, SCRYPTO_TYPE_RID, idTryFrom, leToNat,
      reject_buckets]
  have hpd : process_data reject_buckets reject_references
      ⟨[], [], [], [], [], some (Address.package 7)⟩ [131, 4, 0, 0, 0, 1, 0, 0, 0] =
      (Except.error RuntimeError.BucketMoveNotAllowed,
        ⟨[], [], [], [], [], some (Address.package 7)⟩) := by
    simp [process_data, hp, hvv]
  refine ⟨?_, by decide, ?_⟩
  · simp [handle_put_component_state, Process.package, hpd]
  · simp [handle_put_component_state, Process.package, hpd]

theorem move_to_bucket_loop_zero (bs : List (Nat × Bucket)) (cs : List Nat) (rem : Nat) :
    move_to_bucket_loop bs cs 0 rem = (bs, 0, rem) := by
  cases cs with
  | nil => rfl
  | cons c rest => rw [move_to_bucket_loop, if_pos rfl]

theorem move_to_bucket_loop_subset (cs : List Nat) :
    ∀ (bs : List (Nat × Bucket)) (needed rem : Nat) (e : Nat × Bucket),
    e ∈ (move_to_bucket_loop bs cs needed rem).1 → e ∈ bs := by
  induction cs with
  | nil =>
    intro bs needed rem e he
    exact he
  | cons c rest ih =>
    intro bs needed rem e he
    rw [move_to_bucket_loop] at he
    by_cases hz : needed = 0
    · rw [if_pos hz] at he
      exact he
    · rw [if_neg hz] at he
      by_cases hlt : needed < ((alookup bs c).getD ⟨0, Address.package 0⟩).amount
      · rw [if_pos hlt] at he
        exact List.mem_of_mem_filter (ih (aerase bs c) 0 _ e he)
      · rw [if_neg hlt] at he
        exact List.mem_of_mem_filter (ih (aerase bs c) _ rem e he)

theorem move_to_bucket_loop_keeps_none (cs : List Nat) :
    ∀ (bs : List (Nat × Bucket)) (needed rem : Nat) (k : Nat),
    alookup bs k = none → alookup (move_to_bucket_loop bs cs needed rem).1 k = none := by
  induction cs with
  | nil =>
    intro bs needed rem k hk
    exact hk
  | cons c rest ih =>
    intro bs needed rem k hk
    rw [move_to_bucket_loop]
    by_cases hz : needed = 0
    · rw [if_pos hz]
      exact hk
    · rw [if_neg hz]
      have hk1 : alookup (aerase bs c) k = none := by
        by_cases hck : k = c
        · subst hck
          exact alookup_aerase_self bs k
        · rw [alookup_aerase_ne bs c k hck]
          exact hk
      by_cases hlt : needed < ((alookup bs c).getD ⟨0, Address.package 0⟩).amount
      · rw [if_pos hlt]
        exact ih _ 0 _ k hk1
      · rw [if_neg hlt]
        exact ih _ _ rem k hk1

theorem move_to_bucket_loop_fail_removes (cs : List Nat) :
    ∀ (bs : List (Nat × Bucket)) (needed rem : Nat),
    (move_to_bucket_loop bs cs needed rem).2.1 ≠ 0 →
    ∀ c ∈ cs, alookup (move_to_bucket_loop bs cs needed rem).1 c = none := by
  induction cs with
  | nil =>
    intro bs needed rem _ c hc
    cases hc
  | cons c0 rest ih =>
    intro bs needed rem hfail c hc
    rw [move_to_bucket_loop] at hfail ⊢
    by_cases hz : needed = 0
    · rw [if_pos hz] at hfail
      exact absurd hz (by simpa using hfail)
    · rw [if_neg hz] at hfail ⊢
      by_cases hlt : needed < ((alookup bs c0).getD ⟨0, Address.package 0⟩).amount
      · rw [if_pos hlt] at hfail
        rw [move_to_bucket_loop_zero] at hfail
        simp at hfail
      · rw [if_neg hlt] at hfail ⊢
        rcases List.mem_cons.mp hc with hceq | hcr
        · subst hceq
          exact move_to_bucket_loop_keeps_none rest _ _ _ c (alookup_aerase_self bs c)
        · exact ih _ _ _ hfail c hcr

/-- The amounts the loop can draw from a list of candidate keys. -/
def candSum (bs : List (Nat × Bucket)) (cs : List Nat) : Nat :=
  (cs.map (fun c => ((alookup bs c).getD ⟨0, Address.package 0⟩).amount)).sum

theorem move_to_bucket_loop_needed (cs : List Nat) :
    ∀ (bs : List (Nat × Bucket)) (needed rem : Nat), cs.Nodup →
    (move_to_bucket_loop bs cs needed rem).2.1 = needed - candSum bs cs := by
  induction cs with
  | nil =>
    intro bs needed rem _
    simp [move_to_bucket_loop, candSum]
  | cons c rest ih =>
    intro bs needed rem hnd
    have hnd1 : rest.Nodup := (List.nodup_cons.mp hnd).2
    have hcnr : c ∉ rest := (List.nodup_cons.mp hnd).1
    have hsum : candSum (aerase bs c) rest = candSum bs rest := by
      unfold candSum
      congr 1
      apply List.map_congr_left
      intro x hx
      rw [alookup_aerase_ne bs c x (fun (hh : x = c) => hcnr (hh ▸ hx))]
    rw [move_to_bucket_loop]
    by_cases hz : needed = 0
    · rw [if_pos hz]
      subst hz
      show (0 : Nat) = 0 - candSum bs (c :: rest)
      omega
    · rw [if_neg hz]
      have hcs : candSum bs (c :: rest) =
          ((alookup bs c).getD ⟨0, Address.package 0⟩).amount + candSum bs rest := by
        unfold candSum
        simp
      by_cases hlt : needed < ((alookup bs c).getD ⟨0, Address.package 0⟩).amount
      · rw [if_pos hlt, move_to_bucket_loop_zero]
        show (0 : Nat) = needed - candSum bs (c :: rest)
        rw [hcs]
        omega
      · rw [if_neg hlt, ih _ _ rem hnd1, hsum, hcs]
        omega

theorem alookup_of_mem_nodup {α : Type} (m : List (Nat × α)) (k : Nat) (v : α)
    (hnd : (akeys m).Nodup) (hm : (k, v) ∈ m) : alookup m k = some v := by
  induction m with
  | nil => cases hm
  | cons e rest ih =>
    obtain ⟨k0, v0⟩ := e
    rw [alookup_cons]
    rcases List.mem_cons.mp hm with heq | hmem
    · cases heq
      rw [if_pos rfl]
    · have hk0 : k0 ∉ akeys rest := (List.nodup_cons.mp hnd).1
      by_cases hkk : k0 = k
      · subst hkk
        exact absurd (List.mem_map.mpr ⟨(k0, v), hmem, rfl⟩) hk0
      · rw [if_neg hkk]
        exact ih (List.nodup_cons.mp hnd).2 hmem

theorem perm_insertSorted (x : Nat) (l : List Nat) : (insertSorted x l).Perm (x :: l) := by
  induction l with
  | nil => exact List.Perm.refl _
  | cons y rest ih =>
    rw [insertSorted]
    by_cases h : x ≤ y
    · rw [if_pos h]
    · rw [if_neg h]
      exact List.Perm.trans (List.Perm.cons y ih) (List.Perm.swap x y rest)

theorem perm_sortKeys (l : List Nat) : (sortKeys l).Perm l := by
  induction l with
  | nil => exact List.Perm.refl _
  | cons x rest ih =>
    exact List.Perm.trans (perm_insertSorted x (List.foldr insertSorted [] rest))
      (List.Perm.cons x ih)

theorem candSum_cons (bs : List (Nat × Bucket)) (c : Nat) (cs : List Nat) :
    candSum bs (c :: cs) =
      ((alookup bs c).getD ⟨0, Address.package 0⟩).amount + candSum bs cs := by
  unfold candSum
  simp

theorem candSum_filter (r : Address) (bs : List (Nat × Bucket))
    (hnd : (akeys bs).Nodup) :
    candSum bs ((bs.filter (fun e => e.2.resource = r)).map (fun e => e.1)) =
      asum (bucketVal r) bs := by
  induction bs with
  | nil => rfl
  | cons e rest ih =>
    obtain ⟨k, b⟩ := e
    have hk : k ∉ akeys rest := (List.nodup_cons.mp hnd).1
    have hnd1 : (akeys rest).Nodup := (List.nodup_cons.mp hnd).2
    have hcong : candSum ((k, b) :: rest)
        ((rest.filter (fun e => e.2.resource = r)).map (fun e => e.1)) =
        candSum rest ((rest.filter (fun e => e.2.resource = r)).map (fun e => e.1)) := by
      unfold candSum
      congr 1
      apply List.map_congr_left
      intro x hx
      obtain ⟨e, he, heq⟩ := List.mem_map.mp hx
      have hxmem : x ∈ akeys rest :=
        heq ▸ List.mem_map.mpr ⟨e, List.mem_of_mem_filter he, rfl⟩
      rw [alookup_cons, if_neg (fun (hh : k = x) => hk (hh ▸ hxmem))]
    rw [List.filter_cons, asum_cons]
    by_cases hr : b.resource = r
    · rw [if_pos (by simpa using hr), List.map_cons, candSum_cons, alookup_cons,
        if_pos rfl, hcong, ih hnd1]
      simp [bucketVal, hr]
    · rw [if_neg (by simpa using hr), hcong, ih hnd1]
      simp [bucketVal, hr]

theorem candSum_perm (bs : List (Nat × Bucket)) (cs1 cs2 : List Nat)
    (h : cs1.Perm cs2) : candSum bs cs1 = candSum bs cs2 := by
  unfold candSum
  exact (h.map _).sum_eq

theorem alookup_ne_none_of_mem {κ α : Type} [DecidableEq κ] (m : List (κ × α))
    (e : κ × α) (h : e ∈ m) : alookup m e.1 ≠ none := by
  intro hn
  rw [alookup, Option.map_eq_none'] at hn
  have h2 := List.find?_eq_none.mp hn e h
  simp at h2

/-- C9: when `move_to_bucket` fails with `InsufficientBalance` — which
happens exactly when the owned balance of the resource is below the
requested amount — every candidate bucket of that resource has already been
removed from the owned set and the removal is not rolled back: afterwards
the frame owns no bucket of that resource at all. -/
theorem move_to_bucket_insufficient (rt : Runtime) (p : Process) (amount : Nat)
    (r : Address) (bid : Nat)
    (hnodup : (akeys p.buckets).Nodup) :
    ((move_to_bucket rt p amount r bid).1 =
        Except.error (RuntimeError.AccountingError BucketError.InsufficientBalance) ↔
      asum (bucketVal r) p.buckets < amount) ∧
    ((move_to_bucket rt p amount r bid).1 =
        Except.error (RuntimeError.AccountingError BucketError.InsufficientBalance) →
      (move_to_bucket rt p amount r bid).2.2.buckets.filter
        (fun e => e.2.resource = r) = []) := by
  have hksnd : ((p.buckets.filter (fun e => e.2.resource = r)).map
      (fun e => e.1)).Nodup :=
    List.Nodup.sublist ((List.filter_sublist p.buckets).map (fun e => e.1)) hnodup
  have hcnd : (sortKeys ((p.buckets.filter (fun e => e.2.resource = r)).map
      (fun e => e.1))).Nodup :=
    (perm_sortKeys _).symm.nodup hksnd
  have hneed := move_to_bucket_loop_needed _ p.buckets amount 0 hcnd
  have hsum : candSum p.buckets (sortKeys ((p.buckets.filter
      (fun e => e.2.resource = r)).map (fun e => e.1))) =
      asum (bucketVal r) p.buckets := by
    rw [candSum_perm p.buckets _ _ (perm_sortKeys _)]
    exact candSum_filter r p.buckets hnodup
  rcases hloop : move_to_bucket_loop p.buckets
      (sortKeys ((p.buckets.filter (fun e => e.2.resource = r)).map (fun e => e.1)))
      amount 0 with ⟨b1, n1, r1⟩
  have hn1 : n1 = amount - asum (bucketVal r) p.buckets := by
    rw [hloop] at hneed
    rw [← hsum]
    exact hneed
  have herr : n1 ≠ 0 →
      move_to_bucket rt p amount r bid =
        (Except.error (RuntimeError.AccountingError BucketError.InsufficientBalance), rt,
          { p with buckets := b1 }) := by
    intro hne
    simp [move_to_bucket, hloop, hne]
  have hok : n1 = 0 → (move_to_bucket rt p amount r bid).1 = Except.ok () := by
    intro hz
    subst hz
    simp [move_to_bucket, hloop, Runtime.new_bucket_id]
  constructor
  · constructor
    · intro hres
      by_cases hz : n1 = 0
      · rw [hok hz] at hres
        cases hres
      · omega
    · intro hlt
      rw [herr (by omega)]
  · intro hres
    have hz : n1 ≠ 0 := by
      intro hzz
      rw [hok hzz] at hres
      cases hres
    rw [herr hz]
    rw [List.filter_eq_nil_iff]
    intro e he
    have hmem : e ∈ p.buckets :=
      move_to_bucket_loop_subset _ p.buckets amount 0 e (by rw [hloop]; exact he)
    intro hr
    have hcand : e.1 ∈ sortKeys ((p.buckets.filter (fun x => x.2.resource = r)).map
        (fun x => x.1)) := by
      rw [mem_sortKeys]
      exact List.mem_map.mpr ⟨e, List.mem_filter.mpr ⟨hmem, hr⟩, rfl⟩
    have hnone := move_to_bucket_loop_fail_removes _ p.buckets amount 0
      (by rw [hloop]; simpa using hz) e.1 hcand
    rw [hloop] at hnone
    exact alookup_ne_none_of_mem b1 e he hnone

/-- Witness for `move_to_bucket_insufficient`: asking for 9 units of
resource 5 from a frame holding buckets of 3 and 4 units fails and leaves
no bucket of that resource behind. -/
theorem move_to_bucket_insufficient_witness :
    ((move_to_bucket ⟨50, 0, 0, 0, 0, 0, [], [], [], []⟩
        ⟨[(1, ⟨3, Address.resourceAddress 5⟩), (2, ⟨4, Address.resourceAddress 5⟩)],
          [], [], [], [], none⟩ 9 (Address.resourceAddress 5) 40).1 =
      Except.error (RuntimeError.AccountingError BucketError.InsufficientBalance)) ∧
    ((move_to_bucket ⟨50, 0, 0, 0, 0, 0, [], [], [], []⟩
        ⟨[(1, ⟨3, Address.resourceAddress 5⟩), (2, ⟨4, Address.resourceAddress 5⟩)],
          [], [], [], [], none⟩ 9 (Address.resourceAddress 5) 40).2.2.buckets.filter
      (fun e => e.2.resource = Address.resourceAddress 5) = []) := by
  have h := move_to_bucket_insufficient ⟨50, 0, 0, 0, 0, 0, [], [], [], []⟩
    ⟨[(1, ⟨3, Address.resourceAddress 5⟩), (2, ⟨4, Address.resourceAddress 5⟩)],
      [], [], [], [], none⟩ 9 (Address.resourceAddress 5) 40
    (by simp [akeys])
  have herr := h.1.mpr (by simp [asum, bucketVal])
  exact ⟨herr, h.2 herr⟩

theorem aerase_idem {κ α : Type} [DecidableEq κ] (m : List (κ × α)) (k : κ) :
    aerase (aerase m k) k = aerase m k := by
  unfold aerase
  rw [List.filter_filter]
  apply List.filter_congr
  intro e _
  simp

theorem aerase_ainsert_self {κ α : Type} [DecidableEq κ] (m : List (κ × α)) (k : κ) (v : α) :
    aerase (ainsert m k v) k = aerase m k := by
  rw [ainsert, aerase_cons, if_pos rfl, aerase_idem]

theorem filter_aerase_nil {κ α : Type} [DecidableEq κ] (m : List (κ × α)) (k : κ)
    (pred : κ × α → Bool) (h : m.filter pred = []) : (aerase m k).filter pred = [] := by
  rw [List.filter_eq_nil_iff] at h ⊢
  intro e he
  exact h e (List.mem_of_mem_filter he)

/-- C4: borrowing an owned bucket of `n` units locks it (the owned entry
disappears, a `LockedBucket` appears), `take_from_bucket` on the locked id
then fails with `BucketNotFound`, dropping the last reference reverts the
bucket into the owned set with its balance unchanged, and a subsequent take
of `a ≤ n` succeeds with the two resulting buckets summing to `n`. -/
theorem borrow_lock_revert_cycle (rt : Runtime) (p : Process) (bid n : Nat) (r : Address)
    (hb : alookup p.buckets bid = some ⟨n, r⟩)
    (hnl : alookup p.locked_buckets bid = none)
    (hnoref : p.references.filter (fun e => e.2.bucketId = bid) = [])
    (hnomov : p.moving_references.filter (fun e => e.2.bucketId = bid) = [])
    (hfrb : rt.nextBucketId ≠ bid) :
    handle_create_reference rt p bid =
      (Except.ok rt.nextRid, { rt with nextRid := rt.nextRid + 1 },
        { p with buckets := aerase p.buckets bid,
                 references := ainsert p.references rt.nextRid ⟨bid, ⟨n, r⟩⟩,
                 locked_buckets := ainsert p.locked_buckets bid ⟨bid, ⟨n, r⟩⟩ }) ∧
    (∀ k : Nat, (handle_take_from_bucket { rt with nextRid := rt.nextRid + 1 }
        { p with buckets := aerase p.buckets bid,
                 references := ainsert p.references rt.nextRid ⟨bid, ⟨n, r⟩⟩,
                 locked_buckets := ainsert p.locked_buckets bid ⟨bid, ⟨n, r⟩⟩ } bid k).1 =
      Except.error (RuntimeError.BucketNotFound bid)) ∧
    handle_drop_reference [] { rt with nextRid := rt.nextRid + 1 }
        { p with buckets := aerase p.buckets bid,
                 references := ainsert p.references rt.nextRid ⟨bid, ⟨n, r⟩⟩,
                 locked_buckets := ainsert p.locked_buckets bid ⟨bid, ⟨n, r⟩⟩ }
        rt.nextRid =
      (Except.ok (), { rt with nextRid := rt.nextRid + 1 },
        { p with buckets := ainsert (aerase p.buckets bid) bid ⟨n, r⟩,
                 references := aerase p.references rt.nextRid,
                 locked_buckets := aerase p.locked_buckets bid }) ∧
    (∀ a : Nat, a ≤ n →
      (handle_take_from_bucket { rt with nextRid := rt.nextRid + 1 }
          { p with buckets := ainsert (aerase p.buckets bid) bid ⟨n, r⟩,
                   references := aerase p.references rt.nextRid,
                   locked_buckets := aerase p.locked_buckets bid } bid a).1 =
        Except.ok rt.nextBucketId ∧
      alookup (handle_take_from_bucket { rt with nextRid := rt.nextRid + 1 }
          { p with buckets := ainsert (aerase p.buckets bid) bid ⟨n, r⟩,
                   references := aerase p.references rt.nextRid,
                   locked_buckets := aerase p.locked_buckets bid } bid a).2.2.buckets
        rt.nextBucketId = some ⟨a, r⟩ ∧
      alookup (handle_take_from_bucket { rt with nextRid := rt.nextRid + 1 }
          { p with buckets := ainsert (aerase p.buckets bid) bid ⟨n, r⟩,
                   references := aerase p.references rt.nextRid,
                   locked_buckets := aerase p.locked_buckets bid } bid a).2.2.buckets
        bid = some ⟨n - a, r⟩ ∧
      a + (n - a) = n) := by
  refine ⟨?_, ?_, ?_, ?_⟩
  · simp [handle_create_reference, Runtime.new_rid, hnl, hb]
  · intro k
    simp [handle_take_from_bucket, alookup_aerase_self]
  · have hrefs : aerase (ainsert p.references rt.nextRid
        (⟨bid, ⟨n, r⟩⟩ : LockedBucket)) rt.nextRid = aerase p.references rt.nextRid :=
      aerase_ainsert_self _ _ _
    have hcount : rcStrongCount
        [({ p with
            buckets := aerase p.buckets bid,
            references := aerase p.references rt.nextRid,
            locked_buckets := ainsert p.locked_buckets bid ⟨bid, ⟨n, r⟩⟩ } : Process)]
        bid = 1 := by
      rw [rcStrongCount]
      simp only [List.map_cons, List.map_nil, List.sum_cons, List.sum_nil]
      rw [Process.localClones]
      rw [alookup_ainsert_self]
      rw [filter_aerase_nil p.references rt.nextRid _ hnoref, hnomov]
      simp
    rw [handle_drop_reference]
    rw [alookup_ainsert_self]
    simp only [hrefs, hcount]
    rw [if_pos trivial]
    rw [alookup_ainsert_self]
    simp only [LockedBucket.intoBucket, aerase_ainsert_self]
  · intro a ha
    have hlook : alookup (ainsert (aerase p.buckets bid) bid
        (⟨n, r⟩ : Bucket)) bid = some ⟨n, r⟩ := alookup_ainsert_self _ _ _
    have htake : Bucket.take ⟨n, r⟩ a = Except.ok ((⟨a, r⟩ : Bucket), (⟨n - a, r⟩ : Bucket)) := by
      rw [Bucket.take, if_pos ha]
    refine ⟨?_, ?_, ?_, by omega⟩
    · simp [handle_take_from_bucket, hlook, htake, Runtime.new_bucket_id]
    · simp [handle_take_from_bucket, hlook, htake, Runtime.new_bucket_id,
        alookup_ainsert_self]
    · simp only [handle_take_from_bucket, hlook, htake, Runtime.new_bucket_id]
      rw [alookup_ainsert_ne _ _ _ _ hfrb, alookup_ainsert_self]

theorem borrow_lock_revert_cycle_witness :
    ((handle_take_from_bucket (⟨100, 11, 0, 0, 0, 0, [], [], [], []⟩ : Runtime)
        (⟨[], [(10, (⟨7, ⟨5, Address.resourceAddress 3⟩⟩ : LockedBucket))],
          [(7, (⟨7, ⟨5, Address.resourceAddress 3⟩⟩ : LockedBucket))], [], [], none⟩ : Process)
        7 2).1 =
      Except.error (RuntimeError.BucketNotFound 7)) ∧
    alookup ((handle_take_from_bucket (⟨100, 11, 0, 0, 0, 0, [], [], [], []⟩ : Runtime)
        (⟨[(7, (⟨5, Address.resourceAddress 3⟩ : Bucket))], [], [], [], [], none⟩ : Process)
        7 2).2.2.buckets)
      100 = some ⟨2, Address.resourceAddress 3⟩ := by
  have h := borrow_lock_revert_cycle ⟨100, 10, 0, 0, 0, 0, [], [], [], []⟩
      ⟨[(7, (⟨5, Address.resourceAddress 3⟩ : Bucket))], [], [], [], [], none⟩ 7 5
      (Address.resourceAddress 3) rfl rfl rfl rfl (by decide)
  exact ⟨h.2.1 2, (h.2.2.2 2 (by decide)).2.1⟩

/-- C3: with the argument payload naming an owned bucket, `call` moves the
bucket out of the caller's owned set into the freshly spawned child's owned
set; when the child's return payload names that bucket, the call returns it
to the caller with the same amount and resource address, and after the
caller's own return walk a caller holding no other nonzero resources passes
finalize. -/
theorem call_moves_bucket_roundtrip (rt : Runtime) (p : Process) (bid n : Nat) (r : Address)
    (hb : alookup p.buckets bid = some ⟨n, r⟩)
    (hmb : p.moving_buckets = []) (hmr : p.moving_references = [])
    (hlk : p.locked_buckets = []) (hrf : p.references = [])
    (hzero : ∀ e ∈ p.buckets, e.1 ≠ bid → (e.2 : Bucket).amount = 0)
    (hbid : bid < 4294967296) :
    (process_args p [encodeAny (Value.Custom SCRYPTO_TYPE_BID (idToVec bid))] =
      (Except.ok (),
        { p with buckets := aerase p.buckets bid,
                 moving_buckets := ainsert p.moving_buckets bid ⟨n, r⟩ })) ∧
    alookup (aerase p.buckets bid) bid = none ∧
    alookup (Process.new.put_buckets_and_refs
      (ainsert p.moving_buckets bid ⟨n, r⟩) []).buckets bid = some ⟨n, r⟩ ∧
    (call_with_ret [] rt p [encodeAny (Value.Custom SCRYPTO_TYPE_BID (idToVec bid))]
        (encodeAny (Value.Custom SCRYPTO_TYPE_BID (idToVec bid))) =
      (Except.ok (encodeAny (Value.Custom SCRYPTO_TYPE_BID (idToVec bid))), rt,
        { p with buckets := ainsert (aerase p.buckets bid) bid ⟨n, r⟩ })) ∧
    alookup ({ p with
      buckets := ainsert (aerase p.buckets bid) bid ⟨n, r⟩ } : Process).buckets bid =
      some ⟨n, r⟩ ∧
    finalize (process_data move_buckets move_references
      ({ p with buckets := ainsert (aerase p.buckets bid) bid ⟨n, r⟩ } : Process)
      (encodeAny (Value.Custom SCRYPTO_TYPE_BID (idToVec bid)))).2 = Except.ok () := by
  have hmove : move_buckets p bid =
      (Except.ok bid,
        { p with buckets := aerase p.buckets bid,
                 moving_buckets := ainsert p.moving_buckets bid ⟨n, r⟩ }) := by
    simp [move_buckets, hb]
  have hpd : process_data move_buckets move_references p
      (encodeAny (Value.Custom SCRYPTO_TYPE_BID (idToVec bid))) =
      (Except.ok (encodeAny (Value.Custom SCRYPTO_TYPE_BID (idToVec bid))),
        { p with buckets := aerase p.buckets bid,
                 moving_buckets := ainsert p.moving_buckets bid ⟨n, r⟩ }) := by
    have h2 := process_data_bid_leaf move_buckets move_references p bid hbid
    simp only [hmove] at h2
    exact h2
  have hargs : process_args p [encodeAny (Value.Custom SCRYPTO_TYPE_BID (idToVec bid))] =
      (Except.ok (),
        { p with buckets := aerase p.buckets bid,
                 moving_buckets := ainsert p.moving_buckets bid ⟨n, r⟩ }) := by
    simp [process_args, hpd]
  have hchild : Process.new.put_buckets_and_refs (ainsert p.moving_buckets bid ⟨n, r⟩) [] =
      ({ buckets := [(bid, ⟨n, r⟩)], references := [], locked_buckets := [],
         moving_buckets := [], moving_references := [], vmPackage := none } : Process) := by
    rw [hmb]
    rfl
  have hmovec : move_buckets
      ({ buckets := [(bid, ⟨n, r⟩)], references := [], locked_buckets := [],
         moving_buckets := [], moving_references := [], vmPackage := none } : Process) bid =
      (Except.ok bid,
        ({ buckets := [], references := [], locked_buckets := [],
           moving_buckets := [(bid, ⟨n, r⟩)], moving_references := [],
           vmPackage := none } : Process)) := by
    simp [move_buckets, alookup, ainsert, aerase]
  have hpdc : process_data move_buckets move_references
      ({ buckets := [(bid, ⟨n, r⟩)], references := [], locked_buckets := [],
         moving_buckets := [], moving_references := [], vmPackage := none } : Process)
      (encodeAny (Value.Custom SCRYPTO_TYPE_BID (idToVec bid))) =
      (Except.ok (encodeAny (Value.Custom SCRYPTO_TYPE_BID (idToVec bid))),
        ({ buckets := [], references := [], locked_buckets := [],
           moving_buckets := [(bid, ⟨n, r⟩)], moving_references := [],
           vmPackage := none } : Process)) := by
    have h2 := process_data_bid_leaf move_buckets move_references
      ({ buckets := [(bid, ⟨n, r⟩)], references := [], locked_buckets := [],
         moving_buckets := [], moving_references := [], vmPackage := none } : Process)
      bid hbid
    simp only [hmovec] at h2
    exact h2
  have hfin : alookup (ainsert (aerase p.buckets bid) bid (⟨n, r⟩ : Bucket)) bid =
      some ⟨n, r⟩ := alookup_ainsert_self _ _ _
  refine ⟨hargs, alookup_aerase_self _ _, ?_, ?_, hfin, ?_⟩
  · rw [hchild]
    simp [alookup]
  · rw [call_with_ret, hargs]
    simp only [Process.take_moving_buckets_and_refs]
    rw [hmr, hchild]
    rw [run_returning, hpdc]
    simp only [finalize, List.all_nil, List.isEmpty_nil, Bool.and_self, if_pos rfl,
      Bool.and_true, ite_true]
    simp only [Process.take_moving_buckets_and_refs, Process.put_buckets_and_refs]
    simp only [hlk, hmb, hmr]
    simp [unlock_all, aextend, ainsert, aerase]
  · have hmove2 : move_buckets
        ({ p with buckets := ainsert (aerase p.buckets bid) bid ⟨n, r⟩ } : Process) bid =
        (Except.ok bid,
          { p with buckets := aerase (ainsert (aerase p.buckets bid) bid ⟨n, r⟩) bid,
                   moving_buckets := ainsert p.moving_buckets bid ⟨n, r⟩ }) := by
      simp [move_buckets, hfin]
    have h2 := process_data_bid_leaf move_buckets move_references
      ({ p with buckets := ainsert (aerase p.buckets bid) bid ⟨n, r⟩ } : Process) bid hbid
    simp only [hmove2] at h2
    rw [h2]
    simp only [finalize, aerase_ainsert_self, hlk, hrf, List.isEmpty_nil, Bool.and_true]
    rw [if_pos]
    simp only [List.all_eq_true, decide_eq_true_eq]
    intro e he
    have hm := List.mem_filter.mp he
    have hm1 := List.mem_filter.mp hm.1
    exact hzero e hm1.1 (by simpa using hm1.2)

theorem call_moves_bucket_roundtrip_witness :
    (call_with_ret [] (⟨0, 0, 0, 0, 0, 0, [], [], [], []⟩ : Runtime)
        (⟨[(2, (⟨7, Address.resourceAddress 5⟩ : Bucket))], [], [], [], [], none⟩ : Process)
        [encodeAny (Value.Custom SCRYPTO_TYPE_BID (idToVec 2))]
        (encodeAny (Value.Custom SCRYPTO_TYPE_BID (idToVec 2))) =
      (Except.ok (encodeAny (Value.Custom SCRYPTO_TYPE_BID (idToVec 2))),
        (⟨0, 0, 0, 0, 0, 0, [], [], [], []⟩ : Runtime),
        (⟨[(2, (⟨7, Address.resourceAddress 5⟩ : Bucket))], [], [], [], [], none⟩ : Process))) ∧
    finalize (process_data move_buckets move_references
      (⟨[(2, (⟨7, Address.resourceAddress 5⟩ : Bucket))], [], [], [], [], none⟩ : Process)
      (encodeAny (Value.Custom SCRYPTO_TYPE_BID (idToVec 2)))).2 = Except.ok () := by
  have h := call_moves_bucket_roundtrip ⟨0, 0, 0, 0, 0, 0, [], [], [], []⟩
      ⟨[(2, (⟨7, Address.resourceAddress 5⟩ : Bucket))], [], [], [], [], none⟩ 2 7
      (Address.resourceAddress 5) rfl rfl rfl rfl rfl (by decide) (by decide)
  exact ⟨h.2.2.2.1, h.2.2.2.2.2⟩

/-- C10: drop_reference reverts the bucket into the dropping frame's owned
set only when that frame's own locked set holds the bucket id; a frame that
did not lock the bucket performs no revert even when it drops the last
outstanding reference, and the bucket is re-owned only by the locking
frame's post-call scan of locked buckets whose shared count fell to one. -/
theorem drop_reference_revert_locality (others : List Process) (rt : Runtime)
    (p : Process) (rid bid n : Nat) (r : Address)
    (hp : alookup p.references rid = some ⟨bid, ⟨n, r⟩⟩) :
    (alookup p.locked_buckets bid = none →
      handle_drop_reference others rt p rid =
        (Except.ok (), rt, { p with references := aerase p.references rid })) ∧
    (∀ lb : LockedBucket, alookup p.locked_buckets bid = some lb →
      rcStrongCount ({ p with references := aerase p.references rid } :: others) bid = 1 →
      handle_drop_reference others rt p rid =
        (Except.ok (), rt,
          { p with references := aerase p.references rid,
                   locked_buckets := aerase p.locked_buckets bid,
                   buckets := ainsert p.buckets bid lb.intoBucket })) ∧
    (handle_drop_reference
        [({ Process.new with
            locked_buckets := [(bid, (⟨bid, ⟨n, r⟩⟩ : LockedBucket))] } : Process)]
        rt
        ({ Process.new with
           references := [(rid, (⟨bid, ⟨n, r⟩⟩ : LockedBucket))] } : Process) rid =
      (Except.ok (), rt, Process.new)) ∧
    (call_with_ret [] rt
        ({ Process.new with
           locked_buckets := [(bid, (⟨bid, ⟨n, r⟩⟩ : LockedBucket))] } : Process)
        [] (encodeAny Value.Unit) =
      (Except.ok (encodeAny Value.Unit), rt,
        ({ Process.new with buckets := [(bid, (⟨n, r⟩ : Bucket))] } : Process))) := by
  have hpdu : process_data move_buckets move_references Process.new
      (encodeAny Value.Unit) = (Except.ok (encodeAny Value.Unit), Process.new) := by
    have hw : wfValue Value.Unit = true := by simp [wfValue]
    have hv : visit move_buckets move_references Process.new Value.Unit =
        (Except.ok Value.Unit, Process.new) := by rw [visit]
    simp [process_data, parseAny_encodeAny _ hw, hv]
  refine ⟨?_, ?_, ?_, ?_⟩
  · intro hnl
    simp [handle_drop_reference, hp, hnl]
  · intro lb hl hc
    simp [handle_drop_reference, hp, hl, hc]
  · simp [handle_drop_reference, rcStrongCount, Process.localClones, Process.new,
      alookup, aerase, ainsert]
  · rw [call_with_ret]
    simp only [process_args, Process.take_moving_buckets_and_refs]
    rw [run_returning]
    have hchild : Process.new.put_buckets_and_refs
        ({ Process.new with
           locked_buckets := [(bid, (⟨bid, ⟨n, r⟩⟩ : LockedBucket))] } : Process).moving_buckets
        ({ Process.new with
           locked_buckets := [(bid, (⟨bid, ⟨n, r⟩⟩ : LockedBucket))] } : Process).moving_references =
        Process.new := rfl
    rw [hchild, hpdu]
    simp only [finalize, Process.new, List.all_nil, List.isEmpty_nil, Bool.and_self,
      Bool.and_true, ite_true]
    simp [Process.take_moving_buckets_and_refs, Process.put_buckets_and_refs,
      rcStrongCount, Process.localClones, unlock_all, alookup, aextend, aerase, ainsert,
      LockedBucket.intoBucket]

theorem drop_reference_revert_locality_witness :
    (handle_drop_reference [] (⟨0, 0, 0, 0, 0, 0, [], [], [], []⟩ : Runtime)
        (⟨[], [(4, (⟨9, ⟨6, Address.resourceAddress 2⟩⟩ : LockedBucket))],
          [], [], [], none⟩ : Process) 4 =
      (Except.ok (), (⟨0, 0, 0, 0, 0, 0, [], [], [], []⟩ : Runtime),
        (⟨[], [], [], [], [], none⟩ : Process))) ∧
    (call_with_ret [] (⟨0, 0, 0, 0, 0, 0, [], [], [], []⟩ : Runtime)
        (⟨[], [], [(9, (⟨9, ⟨6, Address.resourceAddress 2⟩⟩ : LockedBucket))],
          [], [], none⟩ : Process)
        [] (encodeAny Value.Unit) =
      (Except.ok (encodeAny Value.Unit), (⟨0, 0, 0, 0, 0, 0, [], [], [], []⟩ : Runtime),
        (⟨[(9, (⟨6, Address.resourceAddress 2⟩ : Bucket))], [], [], [], [],
          none⟩ : Process))) := by
  have h := drop_reference_revert_locality [] ⟨0, 0, 0, 0, 0, 0, [], [], [], []⟩
      ⟨[], [(4, (⟨9, ⟨6, Address.resourceAddress 2⟩⟩ : LockedBucket))], [], [], [], none⟩
      4 9 6 (Address.resourceAddress 2) rfl
  exact ⟨h.1 rfl, h.2.2.2⟩

end AssetDefi
